import Mathlib

/-!
Verification development for a two-tab contract analysis/comparison web
application (single Python source file `shpr_contract_analyzer_compare-v3.py`).

The application is embedded shallowly:

* Python strings are `Str := List Char`; uploaded file contents are `List Nat`
  (byte values).
* Python's dynamically typed JSON values (the parsed LLM responses) are the
  inductive type `Json`; dictionary/attribute access that can raise
  (`AttributeError`/`TypeError`/`KeyError`) is modelled in the `Option` monad,
  where `none` means the Python code raises an exception at that point.
* Streamlit output calls (`st.write`, `st.markdown`, `st.error`, ...) are
  recorded as values of the inductive type `Line`; a render function returns
  `some lines` for an exception-free render and `none` when the Python code
  would raise.
* `datetime.utcnow()` is modelled as a `Nat` count of seconds; `st.session_state`
  is the structure `SessionState`.
* The external libraries (pdfplumber, python-docx, the Groq transport) are
  parameters: an extractor is a function `List Nat → Option Str` (`none` =
  the library raised), the transport is `Str → Except Str Str`.
* CPython's `bytes.decode` (UTF-8, with `strict` / `ignore` / `replace` error
  handlers) and the `json` module (`json.dumps(..., ensure_ascii=False,
  indent=2)` / `json.loads`) are implemented over `List Nat` / `Str` below.
-/

namespace ContractApp

/-- Python strings are modelled as lists of characters. -/
abbrev Str := List Char

/-- Coerce a Lean string literal to the `Str` model. -/
def lit (s : String) : Str := s.data

/-! ## UTF-8 decoding (`bytes.decode`)

Bytes are `Nat` values (< 256).  `utf8Dec1` decodes one scalar value at the
head of the byte list, following RFC 3629 exactly as CPython's strict UTF-8
codec does (no overlong forms, no surrogates, max U+10FFFF). -/

/-- Continuation byte test: `0x80 ≤ b < 0xC0`. -/
def isCont (b : Nat) : Bool := decide (0x80 ≤ b) && decide (b < 0xC0)

/-- Second-byte range check for a three-byte lead `b`:  `0xE0` requires
`0xA0..0xBF` (no overlongs) and `0xED` requires `0x80..0x9F` (no surrogates). -/
def cont3ok (b b1 : Nat) : Bool :=
  if b = 0xE0 then decide (0xA0 ≤ b1) && decide (b1 < 0xC0)
  else if b = 0xED then decide (0x80 ≤ b1) && decide (b1 < 0xA0)
  else isCont b1

/-- Second-byte range check for a four-byte lead `b`:  `0xF0` requires
`0x90..0xBF` (no overlongs) and `0xF4` requires `0x80..0x8F` (max U+10FFFF). -/
def cont4ok (b b1 : Nat) : Bool :=
  if b = 0xF0 then decide (0x90 ≤ b1) && decide (b1 < 0xC0)
  else if b = 0xF4 then decide (0x80 ≤ b1) && decide (b1 < 0x90)
  else isCont b1

/-- Decode one UTF-8 sequence from the head of the list: `some (codepoint,
remaining bytes)`, or `none` if no valid sequence starts here. -/
def utf8Dec1 : List Nat → Option (Nat × List Nat)
  | [] => none
  | b :: rest =>
    if b < 0x80 then some (b, rest)
    else if 0xC2 ≤ b && b ≤ 0xDF then
      match rest with
      | b1 :: rest1 =>
        if isCont b1 then some ((b - 0xC0) * 64 + (b1 - 0x80), rest1) else none
      | [] => none
    else if 0xE0 ≤ b && b ≤ 0xEF then
      match rest with
      | b1 :: b2 :: rest2 =>
        if cont3ok b b1 && isCont b2 then
          some ((b - 0xE0) * 4096 + (b1 - 0x80) * 64 + (b2 - 0x80), rest2)
        else none
      | _ => none
    else if 0xF0 ≤ b && b ≤ 0xF4 then
      match rest with
      | b1 :: b2 :: b3 :: rest3 =>
        if cont4ok b b1 && isCont b2 && isCont b3 then
          some ((b - 0xF0) * 262144 + (b1 - 0x80) * 4096 + (b2 - 0x80) * 64 + (b3 - 0x80), rest3)
        else none
      | _ => none
    else none

/-- Length of the maximal subpart of an ill-formed sequence at the head of the
list (the number of bytes CPython's `ignore`/`replace` error handlers consume
for one error), per the W3C/Unicode "maximal subpart" practice CPython follows. -/
def utf8ErrSkip (l : List Nat) : Nat :=
  match l with
  | [] => 0
  | b :: rest =>
    if 0xE0 ≤ b && b ≤ 0xEF then
      match rest with
      | b1 :: _ => if cont3ok b b1 then 2 else 1
      | [] => 1
    else if 0xF0 ≤ b && b ≤ 0xF4 then
      match rest with
      | b1 :: b2 :: _ =>
        if cont4ok b b1 then (if isCont b2 then 3 else 2) else 1
      | [b1] => if cont4ok b b1 then 2 else 1
      | [] => 1
    else 1

/-- Decoding loop for the `ignore` and `replace` error handlers; `fuel`
bounds the recursion (each step consumes at least one byte, so
`fuel = length` suffices). -/
def utf8DecodeLoop (replaceMode : Bool) : Nat → List Nat → Str
  | 0, _ => []
  | _, [] => []
  | fuel + 1, b :: rest =>
    match utf8Dec1 (b :: rest) with
    | some (cp, rest1) => Char.ofNat cp :: utf8DecodeLoop replaceMode fuel rest1
    | none =>
      let skip := utf8ErrSkip (b :: rest)
      (if replaceMode then [Char.ofNat 0xFFFD] else []) ++
        utf8DecodeLoop replaceMode fuel ((b :: rest).drop skip)

/-- `raw.decode(errors="ignore")`: ill-formed subparts are dropped. -/
def utf8DecodeIgnore (raw : List Nat) : Str := utf8DecodeLoop false raw.length raw

/-- `raw.decode(errors="replace")`: each ill-formed subpart becomes U+FFFD.
This is the behaviour the specification describes ("invalid bytes replaced"). -/
def utf8DecodeReplace (raw : List Nat) : Str := utf8DecodeLoop true raw.length raw

/-- Strict decoding loop: `none` as soon as an ill-formed sequence appears. -/
def utf8DecodeStrictLoop : Nat → List Nat → Option Str
  | _, [] => some []
  | 0, _ :: _ => none
  | fuel + 1, b :: rest =>
    match utf8Dec1 (b :: rest) with
    | some (cp, rest1) =>
      (utf8DecodeStrictLoop fuel rest1).map (fun s => Char.ofNat cp :: s)
    | none => none

/-- `raw.decode("utf-8")` (strict): `none` models `UnicodeDecodeError`. -/
def utf8DecodeStrict (raw : List Nat) : Option Str :=
  utf8DecodeStrictLoop raw.length raw

/-! ## Text extraction (`read_file_to_text`) -/

/-- An uploaded file: `upload.name` (Python may hand `None`) and the raw bytes
returned by `upload.read()`. -/
structure Upload where
  name : Option Str
  content : List Nat

/-- The two optional extraction libraries as black boxes: given the raw bytes,
either extracted text (`some`) or a raised exception (`none`).  For pdfplumber
the `some` value stands for `"\n\n".join(page texts)`, for python-docx for
`"\n".join(paragraph texts)`. -/
structure Extractors where
  pdf_ok : Bool
  docx_ok : Bool
  pdfExtract : List Nat → Option Str
  docxExtract : List Nat → Option Str

/-- One guarded typed-extraction attempt of `read_file_to_text`: run the
library only when the (lower-cased) name has the right suffix and the library
imported; its exceptions (`none`) are swallowed into `none`. -/
def typedExtractStep (ok : Bool) (suffix : Str) (extract : List Nat → Option Str)
    (name : Str) (raw : List Nat) : Option Str :=
  if suffix.isSuffixOf name && ok then extract raw else none

/-- `read_file_to_text` (source lines 102–120): try pdfplumber on `.pdf`
names, python-docx on `.docx` names, swallowing their exceptions, then strict
UTF-8, then UTF-8 with `errors="ignore"`. -/
def read_file_to_text (ext : Extractors) (upload : Upload) : Str :=
  let name := ((upload.name.getD []).map Char.toLower)
  let raw := upload.content
  match typedExtractStep ext.pdf_ok (lit ".pdf") ext.pdfExtract name raw with
  | some t => t
  | none =>
    match typedExtractStep ext.docx_ok (lit ".docx") ext.docxExtract name raw with
    | some t => t
    | none =>
      match utf8DecodeStrict raw with
      | some s => s
      | none => utf8DecodeIgnore raw

/-! ## Session state, login and the idle-timeout gate -/

/-- `st.session_state` as used by the app: the `authenticated` flag (after
`ensure_authenticated` has installed its default), the signed-in user name and
the `last_active` timestamp (seconds; `none` both for the installed default
`None` and for a missing key). -/
structure SessionState where
  authenticated : Bool
  username : Option Str
  last_active : Option Nat
deriving DecidableEq

/-- A cleared session (`st.session_state.clear()`, with the defaults
`ensure_authenticated` would re-install on the next run). -/
def clearedSession : SessionState :=
  { authenticated := false, username := none, last_active := none }

/-- `DEMO_USERS` (source lines 38–41). -/
def DEMO_USERS : List (Str × Str) :=
  [(lit "demo", lit "letmein123"), (lit "sandeep", lit "secret123")]

/-- `IDLE_TIMEOUT_MIN = 60` (source line 42). -/
def IDLE_TIMEOUT_MIN : Nat := 60

/-- Assoc-list lookup, first match wins (Python `dict` access over the literal
`DEMO_USERS`, whose keys are distinct). -/
def slookup : List (Str × Str) → Str → Option Str
  | [], _ => none
  | (k, v) :: rest, key => if k = key then some v else slookup rest key

/-- Outcome of one submitted login form (source lines 50–57): either the
session is authenticated and the page reruns, or an error is shown and the
state is unchanged. -/
inductive LoginOutcome where
  | rerun : LoginOutcome
  | invalidShown : LoginOutcome
deriving DecidableEq

/-- `login_form` with the form submitted with user `u` and password `p`
(source lines 50–57): `u in DEMO_USERS and DEMO_USERS[u] == p` grants the
session, anything else shows "Invalid username or password". -/
def login_submit (u p : Str) (st : SessionState) (now : Nat) :
    SessionState × LoginOutcome :=
  match slookup DEMO_USERS u with
  | some pw =>
    if pw = p then
      ({ authenticated := true, username := some u, last_active := some now },
        LoginOutcome.rerun)
    else (st, LoginOutcome.invalidShown)
  | none => (st, LoginOutcome.invalidShown)

/-- Outcome of `ensure_authenticated` (source lines 59–77): the session timed
out (cleared, warning, rerun), the login form was shown and the script stopped,
or the page proceeds past the gate. -/
inductive GateOutcome where
  | timedOut : GateOutcome
  | loginShown : GateOutcome
  | proceed : GateOutcome
deriving DecidableEq

/-- `ensure_authenticated` (source lines 59–77), with `now` the value of
`datetime.utcnow()` in seconds.  The idle test is strict:
`now - last_active > timedelta(minutes=IDLE_TIMEOUT_MIN)`. -/
def ensure_authenticated (now : Nat) (st : SessionState) :
    SessionState × GateOutcome :=
  if st.authenticated ∧ st.last_active.isSome then
    if now - st.last_active.getD 0 > IDLE_TIMEOUT_MIN * 60 then
      (clearedSession, GateOutcome.timedOut)
    else ({ st with last_active := some now }, GateOutcome.proceed)
  else if ¬ st.authenticated then (st, GateOutcome.loginShown)
  else ({ st with last_active := some now }, GateOutcome.proceed)

/-! ## Python JSON values

The values `json.loads` produces: `None`, booleans, numbers (modelled as
integers; the claims only involve integral amounts), strings, lists and
dicts (assoc lists preserving insertion order). -/

inductive Json where
  | null : Json
  | bool : Bool → Json
  | num : Int → Json
  | str : Str → Json
  | arr : List Json → Json
  | obj : List (Str × Json) → Json

mutual

/-- Decidable equality on `Json` (hand-rolled; the nested inductive defeats
the deriving handler). -/
def jsonDecEq : (a b : Json) → Decidable (a = b)
  | .null, .null => isTrue rfl
  | .bool x, .bool y =>
    match decEq x y with
    | isTrue h => isTrue (h ▸ rfl)
    | isFalse h => isFalse (fun hh => h (Json.bool.inj hh))
  | .num x, .num y =>
    match decEq x y with
    | isTrue h => isTrue (h ▸ rfl)
    | isFalse h => isFalse (fun hh => h (Json.num.inj hh))
  | .str x, .str y =>
    match decEq x y with
    | isTrue h => isTrue (h ▸ rfl)
    | isFalse h => isFalse (fun hh => h (Json.str.inj hh))
  | .arr x, .arr y =>
    match jsonListDecEq x y with
    | isTrue h => isTrue (h ▸ rfl)
    | isFalse h => isFalse (fun hh => h (Json.arr.inj hh))
  | .obj x, .obj y =>
    match jsonFieldsDecEq x y with
    | isTrue h => isTrue (h ▸ rfl)
    | isFalse h => isFalse (fun hh => h (Json.obj.inj hh))
  | .null, .bool _ => isFalse (by intro h; exact Json.noConfusion h)
  | .null, .num _ => isFalse (by intro h; exact Json.noConfusion h)
  | .null, .str _ => isFalse (by intro h; exact Json.noConfusion h)
  | .null, .arr _ => isFalse (by intro h; exact Json.noConfusion h)
  | .null, .obj _ => isFalse (by intro h; exact Json.noConfusion h)
  | .bool _, .null => isFalse (by intro h; exact Json.noConfusion h)
  | .bool _, .num _ => isFalse (by intro h; exact Json.noConfusion h)
  | .bool _, .str _ => isFalse (by intro h; exact Json.noConfusion h)
  | .bool _, .arr _ => isFalse (by intro h; exact Json.noConfusion h)
  | .bool _, .obj _ => isFalse (by intro h; exact Json.noConfusion h)
  | .num _, .null => isFalse (by intro h; exact Json.noConfusion h)
  | .num _, .bool _ => isFalse (by intro h; exact Json.noConfusion h)
  | .num _, .str _ => isFalse (by intro h; exact Json.noConfusion h)
  | .num _, .arr _ => isFalse (by intro h; exact Json.noConfusion h)
  | .num _, .obj _ => isFalse (by intro h; exact Json.noConfusion h)
  | .str _, .null => isFalse (by intro h; exact Json.noConfusion h)
  | .str _, .bool _ => isFalse (by intro h; exact Json.noConfusion h)
  | .str _, .num _ => isFalse (by intro h; exact Json.noConfusion h)
  | .str _, .arr _ => isFalse (by intro h; exact Json.noConfusion h)
  | .str _, .obj _ => isFalse (by intro h; exact Json.noConfusion h)
  | .arr _, .null => isFalse (by intro h; exact Json.noConfusion h)
  | .arr _, .bool _ => isFalse (by intro h; exact Json.noConfusion h)
  | .arr _, .num _ => isFalse (by intro h; exact Json.noConfusion h)
  | .arr _, .str _ => isFalse (by intro h; exact Json.noConfusion h)
  | .arr _, .obj _ => isFalse (by intro h; exact Json.noConfusion h)
  | .obj _, .null => isFalse (by intro h; exact Json.noConfusion h)
  | .obj _, .bool _ => isFalse (by intro h; exact Json.noConfusion h)
  | .obj _, .num _ => isFalse (by intro h; exact Json.noConfusion h)
  | .obj _, .str _ => isFalse (by intro h; exact Json.noConfusion h)
  | .obj _, .arr _ => isFalse (by intro h; exact Json.noConfusion h)

/-- Decidable equality on lists of `Json`. -/
def jsonListDecEq : (a b : List Json) → Decidable (a = b)
  | [], [] => isTrue rfl
  | [], _ :: _ => isFalse (by intro h; exact List.noConfusion h)
  | _ :: _, [] => isFalse (by intro h; exact List.noConfusion h)
  | x :: xs, y :: ys =>
    match jsonDecEq x y, jsonListDecEq xs ys with
    | isTrue h1, isTrue h2 => isTrue (h1 ▸ h2 ▸ rfl)
    | isFalse h1, _ => isFalse (fun hh => h1 (List.cons.inj hh).1)
    | _, isFalse h2 => isFalse (fun hh => h2 (List.cons.inj hh).2)

/-- Decidable equality on dict field lists. -/
def jsonFieldsDecEq : (a b : List (Str × Json)) → Decidable (a = b)
  | [], [] => isTrue rfl
  | [], _ :: _ => isFalse (by intro h; exact List.noConfusion h)
  | _ :: _, [] => isFalse (by intro h; exact List.noConfusion h)
  | (k1, v1) :: xs, (k2, v2) :: ys =>
    match decEq k1 k2, jsonDecEq v1 v2, jsonFieldsDecEq xs ys with
    | isTrue h0, isTrue h1, isTrue h2 => isTrue (h0 ▸ h1 ▸ h2 ▸ rfl)
    | isFalse h0, _, _ =>
      isFalse (fun hh => h0 (congrArg Prod.fst (List.cons.inj hh).1))
    | _, isFalse h1, _ =>
      isFalse (fun hh => h1 (congrArg Prod.snd (List.cons.inj hh).1))
    | _, _, isFalse h2 => isFalse (fun hh => h2 (List.cons.inj hh).2)

end

instance : DecidableEq Json := jsonDecEq

/-- First-match assoc lookup in a dict's field list. -/
def jLookup : List (Str × Json) → Str → Option Json
  | [], _ => none
  | (k, v) :: rest, key => if k = key then some v else jLookup rest key

/-- Python `d.get(key)`: `None` when absent; raises (`none`) when the receiver
is not a dict (`AttributeError`). -/
def pyGet : Json → Str → Option Json
  | .obj fs, k => some ((jLookup fs k).getD .null)
  | _, _ => none

/-- Python `d.get(key, default)`. -/
def pyGetD (j : Json) (k : Str) (d : Json) : Option Json :=
  match j with
  | .obj fs => some ((jLookup fs k).getD d)
  | _ => none

/-- Python `d[key]` subscription: raises (`none`) on a missing key or a
non-dict receiver. -/
def pyIndex : Json → Str → Option Json
  | .obj fs, k => jLookup fs k
  | _, _ => none

/-- Python truthiness of a JSON value. -/
def pyTruthy : Json → Bool
  | .null => false
  | .bool b => b
  | .num n => decide (n ≠ 0)
  | .str s => !s.isEmpty
  | .arr l => !l.isEmpty
  | .obj fs => !fs.isEmpty

/-- Python `a or b`. -/
def pyOr (a b : Json) : Json := if pyTruthy a then a else b

/-- Decimal digit character for `d < 10`. -/
def digitChar : Nat → Char
  | 0 => '0'
  | 1 => '1'
  | 2 => '2'
  | 3 => '3'
  | 4 => '4'
  | 5 => '5'
  | 6 => '6'
  | 7 => '7'
  | 8 => '8'
  | _ => '9'

/-- Decimal digits of `n` (auxiliary, fuel-driven). -/
def natDigitsAux : Nat → Nat → Str
  | 0, _ => []
  | fuel + 1, n =>
    if n < 10 then [digitChar n]
    else natDigitsAux fuel (n / 10) ++ [digitChar (n % 10)]

/-- Decimal representation of a natural number. -/
def natStr (n : Nat) : Str := natDigitsAux (n + 1) n

/-- Python `str` of an integer. -/
def intStr : Int → Str
  | .ofNat n => natStr n
  | .negSucc m => '-' :: natStr (m + 1)

mutual

/-- Python `repr()` of a JSON value (string escaping inside container `repr`
is not modelled; no claim depends on it). -/
def pyRepr : Json → Str
  | .null => lit "None"
  | .bool true => lit "True"
  | .bool false => lit "False"
  | .num n => intStr n
  | .str s => '\'' :: s ++ ['\'']
  | .arr l => '[' :: List.intercalate (lit ", ") (pyReprList l) ++ [']']
  | .obj fs =>
    Char.ofNat 123 :: List.intercalate (lit ", ") (pyReprFields fs) ++
      [Char.ofNat 125]

/-- `repr()` of each list element. -/
def pyReprList : List Json → List Str
  | [] => []
  | j :: rest => pyRepr j :: pyReprList rest

/-- `repr()` of each `key: value` dict entry. -/
def pyReprFields : List (Str × Json) → List Str
  | [] => []
  | (k, v) :: rest => ('\'' :: k ++ '\'' :: ':' :: ' ' :: pyRepr v) :: pyReprFields rest

end

/-- Python `str()` of a JSON value (as interpolated by f-strings): like
`repr()` except that a top-level string is returned unquoted. -/
def pyStr : Json → Str
  | .str s => s
  | j => pyRepr j

/-- Extract the underlying strings of a list of values, failing on the first
non-string (`TypeError` in a `join`). -/
def strList : List Json → Option (List Str)
  | [] => some []
  | Json.str s :: rest => (strList rest).map (fun ss => s :: ss)
  | _ :: _ => none

/-- Python `sep.join(items)`: every item must be a `str`, otherwise a
`TypeError` is raised (`none`). -/
def pyJoin (sep : Str) (items : List Json) : Option Str :=
  (strList items).map (fun ss => List.intercalate sep ss)

/-- Python slicing `x[:n]`: works on lists and strings, raises (`none`) on
anything else. -/
def pySlice (j : Json) (n : Nat) : Option Json :=
  match j with
  | .arr l => some (.arr (l.take n))
  | .str s => some (.str (s.take n))
  | _ => none

/-- Python iteration `for x in j`: lists yield elements, strings yield
one-character strings, dicts yield their keys; other values raise. -/
def pyIterList : Json → Option (List Json)
  | .arr l => some l
  | .str s => some (s.map (fun c => .str [c]))
  | .obj fs => some (fs.map (fun kv => .str kv.1))
  | _ => none

/-- Python `d.items()`: raises (`none`) on non-dicts. -/
def pyItems : Json → Option (List (Str × Json))
  | .obj fs => some fs
  | _ => none

/-- `s.strip(chars)`: drop characters of `cs` from both ends. -/
def stripChars (cs : Str) (s : Str) : Str :=
  ((s.dropWhile (fun c => cs.contains c)).reverse.dropWhile
    (fun c => cs.contains c)).reverse

/-! ## The `json` module: `json.dumps(..., ensure_ascii=False, indent=2)`
and `json.loads` -/

/-- Opening brace character (written by code point to keep string literals
brace-free). -/
def lbrace : Char := Char.ofNat 123

/-- Closing brace character. -/
def rbrace : Char := Char.ofNat 125

/-- Lower-case hex digit character for `d < 16`. -/
def hexDigitChar : Nat → Char
  | 10 => 'a'
  | 11 => 'b'
  | 12 => 'c'
  | 13 => 'd'
  | 14 => 'e'
  | 15 => 'f'
  | d => digitChar d

/-- JSON escaping of one character, as `json.dumps(..., ensure_ascii=False)`
does: only `"`, `\` and control characters are escaped (with the short forms
for backspace, tab, newline, form feed, carriage return). -/
def escapeChar (c : Char) : Str :=
  if c = '"' then ['\\', '"']
  else if c = '\\' then ['\\', '\\']
  else if c.toNat < 0x20 then
    if c = Char.ofNat 8 then ['\\', 'b']
    else if c = '\t' then ['\\', 't']
    else if c = '\n' then ['\\', 'n']
    else if c = Char.ofNat 12 then ['\\', 'f']
    else if c = '\r' then ['\\', 'r']
    else ['\\', 'u', '0', '0', hexDigitChar (c.toNat / 16), hexDigitChar (c.toNat % 16)]
  else [c]

/-- JSON string literal for `s` (quotes included). -/
def escString (s : Str) : Str := '"' :: (s.map escapeChar).flatten ++ ['"']

/-- `n` spaces. -/
def spacesN (n : Nat) : Str := List.replicate n ' '

mutual

/-- `json.dumps(j, ensure_ascii=False, indent=2)` at current indentation
`ind`: non-empty containers open with a newline, indent their entries by two
more spaces, separate them with `",\n"` and close at the old indentation. -/
def dumpsVal (ind : Nat) : Json → Str
  | .null => lit "null"
  | .bool true => lit "true"
  | .bool false => lit "false"
  | .num n => intStr n
  | .str s => escString s
  | .arr [] => lit "[]"
  | .arr (e :: es) =>
    '[' :: '\n' :: List.intercalate (lit ",\n") (dumpsItems (ind + 2) (e :: es)) ++
      '\n' :: spacesN ind ++ [']']
  | .obj [] => [lbrace, rbrace]
  | .obj (f :: fs) =>
    lbrace :: '\n' :: List.intercalate (lit ",\n") (dumpsFields (ind + 2) (f :: fs)) ++
      '\n' :: spacesN ind ++ [rbrace]

/-- One indented line per array item. -/
def dumpsItems (ind : Nat) : List Json → List Str
  | [] => []
  | e :: es => (spacesN ind ++ dumpsVal ind e) :: dumpsItems ind es

/-- One indented `"key": value` line per dict entry. -/
def dumpsFields (ind : Nat) : List (Str × Json) → List Str
  | [] => []
  | (k, v) :: fs =>
    (spacesN ind ++ escString k ++ ':' :: ' ' :: dumpsVal ind v) :: dumpsFields ind fs

end

/-- The JSON text the app's "Download JSON" button serves (source lines
433–438). -/
def jsonDumps (j : Json) : Str := dumpsVal 0 j

/-- JSON whitespace. -/
def isWsCh (c : Char) : Bool := c = ' ' || c = '\n' || c = '\t' || c = '\r'

/-- Skip leading whitespace. -/
def skipWs (s : Str) : Str := s.dropWhile isWsCh

/-- ASCII decimal digit test. -/
def isDigitCh (c : Char) : Bool := decide (48 ≤ c.toNat) && decide (c.toNat ≤ 57)

/-- Numeric value of a decimal digit character. -/
def digitVal (c : Char) : Nat := c.toNat - 48

/-- Value of a hex digit character (JSON `\uXXXX` escapes, both cases). -/
def hexVal (c : Char) : Option Nat :=
  if isDigitCh c then some (digitVal c)
  else if decide (97 ≤ c.toNat) && decide (c.toNat ≤ 102) then some (c.toNat - 87)
  else if decide (65 ≤ c.toNat) && decide (c.toNat ≤ 70) then some (c.toNat - 55)
  else none

/-- Resolution of a single-character escape (`\" \\ \/ \b \f \n \r \t`). -/
def unescapeChar (c : Char) : Option Char :=
  if c = '"' then some '"'
  else if c = '\\' then some '\\'
  else if c = '/' then some '/'
  else if c = 'b' then some (Char.ofNat 8)
  else if c = 'f' then some (Char.ofNat 12)
  else if c = 'n' then some '\n'
  else if c = 'r' then some '\r'
  else if c = 't' then some '\t'
  else none

/-- Parse a JSON string body (after the opening quote): content and remaining
input.  `fuel` bounds the recursion; each step consumes at least one input
character, so `fuel = input length` is always enough. -/
def parseStringBody : Nat → Str → Option (Str × Str)
  | 0, _ => none
  | _ + 1, [] => none
  | fuel + 1, c :: rest =>
    if c = '"' then some ([], rest)
    else if c = '\\' then
      match rest with
      | [] => none
      | e :: rest2 =>
        if e = 'u' then
          match rest2 with
          | h1 :: h2 :: h3 :: h4 :: rest3 => do
            let v1 ← hexVal h1
            let v2 ← hexVal h2
            let v3 ← hexVal h3
            let v4 ← hexVal h4
            let p ← parseStringBody fuel rest3
            return (Char.ofNat (v1 * 4096 + v2 * 256 + v3 * 16 + v4) :: p.1, p.2)
          | _ => none
        else do
          let u ← unescapeChar e
          let p ← parseStringBody fuel rest2
          return (u :: p.1, p.2)
    else do
      let p ← parseStringBody fuel rest
      return (c :: p.1, p.2)

/-- Parse a run of decimal digits. -/
def parseDigits (s : Str) : Option (Nat × Str) :=
  let ds := s.takeWhile isDigitCh
  if ds.isEmpty then none
  else some (ds.foldl (fun a c => 10 * a + digitVal c) 0, s.dropWhile isDigitCh)

/-- Parse a JSON number (integers; the LLM schema's amounts are modelled as
integers throughout). -/
def parseNum : Str → Option (Json × Str)
  | '-' :: s => (parseDigits s).map (fun p => (Json.num (-(p.1 : Int)), p.2))
  | s => (parseDigits s).map (fun p => (Json.num (p.1 : Int), p.2))

/-- Match an exact expected string at the head of the input, returning the
rest. -/
def parseExact : Str → Str → Option Str
  | [], s => some s
  | _ :: _, [] => none
  | c :: cs, x :: xs => if x = c then parseExact cs xs else none

/-- Python dict insertion `d[k] = v`: replaces the value in place if the key
exists, appends otherwise. -/
def dictInsert : List (Str × Json) → Str → Json → List (Str × Json)
  | [], k, v => [(k, v)]
  | (k', v') :: rest, k, v =>
    if k' = k then (k', v) :: rest else (k', v') :: dictInsert rest k v

/-- Build a dict from parsed key/value pairs the way `json.loads` does
(later duplicate keys overwrite earlier ones in place). -/
def buildDict (pairs : List (Str × Json)) : List (Str × Json) :=
  pairs.foldl (fun d kv => dictInsert d kv.1 kv.2) []

mutual

/-- Recursive-descent JSON value parser (`fuel`-bounded mutual recursion). -/
def parseValue : Nat → Str → Option (Json × Str)
  | 0, _ => none
  | fuel + 1, s =>
    match skipWs s with
    | [] => none
    | c :: cs =>
      if c = 'n' then (parseExact (lit "ull") cs).map (fun r => (Json.null, r))
      else if c = 't' then (parseExact (lit "rue") cs).map (fun r => (Json.bool true, r))
      else if c = 'f' then (parseExact (lit "alse") cs).map (fun r => (Json.bool false, r))
      else if c = '"' then
        (parseStringBody cs.length cs).map (fun p => (Json.str p.1, p.2))
      else if c = '-' || isDigitCh c then parseNum (c :: cs)
      else if c = '[' then
        match skipWs cs with
        | ']' :: r => some (Json.arr [], r)
        | _ => (parseArrElems fuel cs).map (fun p => (Json.arr p.1, p.2))
      else if c = lbrace then
        match skipWs cs with
        | x :: r =>
          if x = rbrace then some (Json.obj [], r)
          else (parseObjFields fuel cs).map (fun p => (Json.obj (buildDict p.1), p.2))
        | [] => none
      else none

/-- Parse one or more comma-separated array elements and the closing `]`. -/
def parseArrElems : Nat → Str → Option (List Json × Str)
  | 0, _ => none
  | fuel + 1, s => do
    let p ← parseValue fuel s
    match skipWs p.2 with
    | c :: r2 =>
      if c = ',' then (parseArrElems fuel r2).map (fun q => (p.1 :: q.1, q.2))
      else if c = ']' then some ([p.1], r2)
      else none
    | [] => none

/-- Parse one or more comma-separated `"key": value` members and the
closing brace. -/
def parseObjFields : Nat → Str → Option (List (Str × Json) × Str)
  | 0, _ => none
  | fuel + 1, s =>
    match skipWs s with
    | '"' :: r0 => do
      let kp ← parseStringBody r0.length r0
      match skipWs kp.2 with
      | ':' :: r2 => do
        let vp ← parseValue fuel r2
        match skipWs vp.2 with
        | c :: r4 =>
          if c = ',' then
            (parseObjFields fuel r4).map (fun q => ((kp.1, vp.1) :: q.1, q.2))
          else if c = rbrace then some ([(kp.1, vp.1)], r4)
          else none
        | [] => none
      | _ => none
    | _ => none

end

/-- `json.loads`: parse a complete JSON document (only trailing whitespace
may remain). -/
def jsonLoads (s : Str) : Option Json :=
  match parseValue (s.length + 1) s with
  | some (j, rest) => if (skipWs rest).isEmpty then some j else none
  | none => none

/-! ## Streamlit output and the result renderers

Each Streamlit call that produces user-visible output is recorded as a
`Line`; rendering returns `none` where the Python code would raise.  (In the
real app an exception aborts the script run mid-output; the model treats the
whole render as failed, which is all the claims need.) -/

inductive Line where
  | write : Str → Line
  | markdown : Str → Line
  | subheader : Str → Line
  | success : Str → Line
  | error : Str → Line
  | expanderLabel : Str → Line
  | download : Str → Str → Line
deriving DecidableEq

/-- The translation helper `T(nl, en)` (source line 98), with the sidebar
language flag `NL` as a parameter. -/
def T (NL : Bool) (nl en : Str) : Str := if NL then nl else en

/-- The `[{type}/{change}]` tag of one major change, stripped of `[]/`
characters (source line 348). -/
def tagOf (ch : Json) : Option Str := do
  let ty ← pyGetD ch (lit "type") (.str [])
  let cg ← pyGetD ch (lit "change") (.str [])
  return stripChars (lit "[]/") ('[' :: pyStr ty ++ '/' :: pyStr cg ++ [']'])

/-- Rendering of one major change in the UI (source lines 347–363): the
bullet line plus the optional `Details` expander. -/
def renderChangeUI (NL : Bool) (ch : Json) : Option (List Line) := do
  let tag ← tagOf ch
  let title ← pyGetD ch (lit "title") (.str [])
  let note ← pyGetD ch (lit "note") (.str [])
  let before ← pyGet ch (lit "before")
  let after ← pyGet ch (lit "after")
  let impact ← pyGet ch (lit "impact")
  let line : Str :=
    if pyTruthy note then
      lit "- " ++ tag ++ lit " " ++ pyStr title ++ lit ": " ++ pyStr note
    else lit "- " ++ tag ++ lit " " ++ pyStr title
  let details : List Line :=
    if pyTruthy before || pyTruthy after || pyTruthy impact then
      Line.expanderLabel (T NL (lit "Details") (lit "Details")) ::
        ((if pyTruthy impact then [Line.write (lit "• Impact: " ++ pyStr impact)] else []) ++
         (if pyTruthy before then [Line.write (lit "• Before: " ++ pyStr before)] else []) ++
         (if pyTruthy after then [Line.write (lit "• After: " ++ pyStr after)] else []))
    else []
  return Line.write line :: details

/-- The "Grote wijzigingen" section (source lines 346–363): header, then the
first 50 major changes.  (The header string is not routed through `T` in the
source.) -/
def renderMajorUI (NL : Bool) (mc : Json) : Option (List Line) := do
  let sliced ← pySlice mc 50
  let elems ← pyIterList sliced
  let lls ← elems.mapM (renderChangeUI NL)
  return Line.markdown (lit "###   Grote wijzigingen") :: lls.flatten

/-- The fixed totals keys iterated at source lines 380 and 452. -/
def totalsKeys : List Str := [lit "one_time", lit "monthly", lit "yearly"]

/-- The totals line for key `k` (source line 383 / 455):
`- {k}: {cur} {old} → {cur} {new} (Δ {delta})`. -/
def totalsRowText (cur : Json) (k : Str) (o n d : Json) : Str :=
  lit "- " ++ k ++ lit ": " ++ pyStr cur ++ lit " " ++ pyStr o ++ lit " → " ++
    pyStr cur ++ lit " " ++ pyStr n ++ lit " (Δ " ++ pyStr d ++ lit ")"

/-- The pricing totals rows (source lines 380–383): one line per key whose
row is a dict. -/
def totalsRowLines (cur : Json) (totals : Json) : Option (List Line) := do
  let rows ← totalsKeys.mapM (fun k => do
    let row ← pyGet totals k
    match row with
    | .obj _ => do
      let o ← pyGet row (lit "old")
      let n ← pyGet row (lit "new")
      let d ← pyGet row (lit "delta")
      return [Line.write (totalsRowText cur k o n d)]
    | _ => (return [] : Option (List Line)))
  return rows.flatten

/-- Rendering of one added line item (source lines 387–398). -/
def renderItemAdded (cur : Json) (it : Json) : Option Line := do
  let desc ← pyGetD it (lit "description") (.str [])
  let qty ← pyGet it (lit "qty")
  let unitRaw ← pyGet it (lit "unit")
  let unit := pyOr unitRaw (.str [])
  let uprice ← pyGet it (lit "unit_price")
  let currRaw ← pyGet it (lit "currency")
  let curr := pyOr currRaw cur
  let periodRaw ← pyGet it (lit "period")
  let period := pyOr periodRaw (.str [])
  let total ← pyGet it (lit "line_total")
  let bits : List Json :=
    (if qty ≠ Json.null then [Json.str (pyStr qty)] else []) ++
      (if pyTruthy unit then [unit] else [])
  let qty_unit ← pyJoin (lit " ") bits
  let slashPeriod ← (if pyTruthy period then
      match period with
      | Json.str s => (some ('/' :: s) : Option Str)
      | _ => none
    else some [])
  return Line.write (lit "- " ++ pyStr desc ++ lit " — " ++ qty_unit ++ lit " @ " ++
    pyStr curr ++ lit " " ++ pyStr uprice ++ lit " " ++ slashPeriod ++
    (if total ≠ Json.null then lit " ⇒ " ++ pyStr curr ++ lit " " ++ pyStr total else []))

/-- Rendering of one removed line item (source line 402). -/
def renderItemRemoved (it : Json) : Option Line := do
  let desc ← pyGetD it (lit "description") (.str [])
  return Line.write (lit "- " ++ pyStr desc)

/-- Rendering of one modified line item with its changed fields
(source lines 406–408). -/
def renderItemModified (it : Json) : Option (List Line) := do
  let desc ← pyGetD it (lit "description") (.str [])
  let fc ← pyGet it (lit "fields_changed")
  let di ← pyGet it (lit "diff")
  let fd := pyOr fc (pyOr di (.obj []))
  let entries ← pyItems fd
  let subLines ← entries.mapM (fun kv => do
    let o ← pyGet kv.2 (lit "old")
    let n ← pyGet kv.2 (lit "new")
    return Line.write (lit "  - " ++ kv.1 ++ lit ": " ++ pyStr o ++ lit " → " ++ pyStr n))
  return Line.write (lit "- " ++ pyStr desc) :: subLines

/-- Rendering of one new price-change rule (source lines 412–419). -/
def renderPriceChange (cur : Json) (ch : Json) : Option Line := do
  let t ← pyGetD ch (lit "type") (.str (lit "change"))
  let amt ← pyGet ch (lit "amount")
  let pct ← pyGet ch (lit "percent")
  let effRaw ← pyGet ch (lit "effective_date")
  let eff := pyOr effRaw (.str [])
  let noteRaw ← pyGet ch (lit "note")
  let note := pyOr noteRaw (.str [])
  let parts : List Json :=
    [t] ++
      (if pct ≠ Json.null then [Json.str (pyStr pct ++ ['%'])] else []) ++
      (if amt ≠ Json.null then [Json.str (pyStr cur ++ lit " " ++ pyStr amt)] else []) ++
      (if pyTruthy eff then [Json.str (lit "effective " ++ pyStr eff)] else []) ++
      (if pyTruthy note then [Json.str (lit "— " ++ pyStr note)] else [])
  let joined ← pyJoin (lit ", ") parts
  return Line.write (lit "- " ++ joined)

/-- The indexation lines (source lines 422–428). -/
def indexationLines (NL : Bool) (pc : Json) : Option (List Line) := do
  let idxT ← pyGet pc (lit "indexation")
  if pyTruthy idxT then do
    let idx ← pyGetD pc (lit "indexation") (.obj [])
    let oldRaw ← pyGet idx (lit "old")
    let old_i := pyOr oldRaw (.obj [])
    let newRaw ← pyGet idx (lit "new")
    let new_i := pyOr newRaw (.obj [])
    if pyTruthy old_i || pyTruthy new_i then do
      let oldItems ← pyItems old_i
      let newItems ← pyItems new_i
      let keep := fun (kv : Str × Json) =>
        decide (kv.2 ≠ Json.null) && decide (kv.2 ≠ Json.str [])
      let oldParts := (oldItems.filter keep).map (fun kv => kv.1 ++ '=' :: pyStr kv.2)
      let newParts := (newItems.filter keep).map (fun kv => kv.1 ++ '=' :: pyStr kv.2)
      return [Line.write (lit "- " ++ T NL (lit "Indexatie oud") (lit "Indexation old") ++
          lit ": " ++ List.intercalate (lit ", ") oldParts),
        Line.write (lit "- " ++ T NL (lit "Indexatie nieuw") (lit "Indexation new") ++
          lit ": " ++ List.intercalate (lit ", ") newParts)]
    else return []
  else return []

/-- The header + totals rows of the pricing section (source lines 377–383),
returning also the `cur` value the later sub-sections reuse. -/
def totalsSection (NL : Bool) (pc : Json) : Option (Json × List Line) := do
  let totalsRaw ← pyGet pc (lit "totals")
  let totals := pyOr totalsRaw (.obj [])
  let curRaw ← pyGet totals (lit "currency")
  let cur := pyOr curRaw (.str [])
  let tl ← totalsRowLines cur totals
  return (cur, Line.markdown (lit "### " ++ T NL (lit "Prijsvergelijking")
    (lit "Pricing comparison")) :: tl)

/-- The `items_added` sub-section (source lines 384–398). -/
def itemsAddedSection (NL : Bool) (cur : Json) (pc : Json) : Option (List Line) := do
  let iaT ← pyGet pc (lit "items_added")
  if pyTruthy iaT then do
    let ia ← pyGetD pc (lit "items_added") (.arr [])
    let sliced ← pySlice ia 20
    let elems ← pyIterList sliced
    let ls ← elems.mapM (renderItemAdded cur)
    return Line.markdown (lit "**" ++ T NL (lit "Items toegevoegd") (lit "Items added") ++
      lit ":**") :: ls
  else return []

/-- The `items_removed` sub-section (source lines 399–402). -/
def itemsRemovedSection (NL : Bool) (pc : Json) : Option (List Line) := do
  let irT ← pyGet pc (lit "items_removed")
  if pyTruthy irT then do
    let ir ← pyGetD pc (lit "items_removed") (.arr [])
    let sliced ← pySlice ir 20
    let elems ← pyIterList sliced
    let ls ← elems.mapM renderItemRemoved
    return Line.markdown (lit "**" ++ T NL (lit "Items verwijderd") (lit "Items removed") ++
      lit ":**") :: ls
  else return []

/-- The `items_modified` sub-section (source lines 403–408). -/
def itemsModifiedSection (NL : Bool) (pc : Json) : Option (List Line) := do
  let imT ← pyGet pc (lit "items_modified")
  if pyTruthy imT then do
    let im ← pyGetD pc (lit "items_modified") (.arr [])
    let sliced ← pySlice im 20
    let elems ← pyIterList sliced
    let lls ← elems.mapM renderItemModified
    return Line.markdown (lit "**" ++ T NL (lit "Items gewijzigd") (lit "Items modified") ++
      lit ":**") :: lls.flatten
  else return []

/-- The `diff_summary` line inside the price-changes sub-section
(source lines 420–421). -/
def diffSummaryLines (pc : Json) : Option (List Line) := do
  let pcg2 ← pyGetD pc (lit "price_changes") (.obj [])
  let dsT ← pyGet pcg2 (lit "diff_summary")
  if pyTruthy dsT then do
    let pcv ← pyIndex pc (lit "price_changes")
    let dsv ← pyIndex pcv (lit "diff_summary")
    return [Line.write (lit "- " ++ pyStr dsv)]
  else return []

/-- The `price_changes` sub-section (source lines 409–421). -/
def priceChangesSection (NL : Bool) (cur : Json) (pc : Json) : Option (List Line) := do
  let pcgT ← pyGet pc (lit "price_changes")
  if pyTruthy pcgT then do
    let pcg ← pyGetD pc (lit "price_changes") (.obj [])
    let newRaw ← pyGetD pcg (lit "new") (.arr [])
    let sliced ← pySlice newRaw 20
    let elems ← pyIterList sliced
    let ls ← elems.mapM (renderPriceChange cur)
    let dsLines ← diffSummaryLines pc
    return Line.markdown (lit "**" ++ T NL (lit "Prijswijzigingen") (lit "Price change rules") ++
      lit ":**") :: ls ++ dsLines
  else return []

/-- The pricing-comparison section of the UI (source lines 377–428), reached
only when `pricing_compare` is truthy. -/
def renderPricingUI (NL : Bool) (pc : Json) : Option (List Line) := do
  let ct ← totalsSection NL pc
  let iaLines ← itemsAddedSection NL ct.1 pc
  let irLines ← itemsRemovedSection NL pc
  let imLines ← itemsModifiedSection NL pc
  let pcgLines ← priceChangesSection NL ct.1 pc
  let idxLines ← indexationLines NL pc
  return ct.2 ++ iaLines ++ irLines ++ imLines ++ pcgLines ++ idxLines

/-- The key-points section of the UI (source lines 369–372). -/
def keyPointsSection (NL : Bool) (resp : Json) : Option (List Line) := do
  let kpT ← pyGet resp (lit "key_points_to_verify")
  if pyTruthy kpT then do
    let kp ← pyGetD resp (lit "key_points_to_verify") (.arr [])
    let sliced ← pySlice kp 20
    let elems ← pyIterList sliced
    return Line.markdown (lit "### " ++ T NL (lit "Belangrijke controlepunten")
        (lit "Key points to verify")) ::
      elems.map (fun k => Line.write (lit "- " ++ pyStr k))
  else return []

/-- The optional pricing section, with its `or {}` guard (source lines
374–376). -/
def pricingSectionUI (NL : Bool) (resp : Json) : Option (List Line) := do
  let pcRaw ← pyGet resp (lit "pricing_compare")
  let pc := pyOr pcRaw (.obj [])
  if pyTruthy pc then renderPricingUI NL pc else return []

/-- The assessment / renegotiate block (source lines 365–367). -/
def assessmentLines (NL : Bool) (resp : Json) : Option (List Line) := do
  let oa ← pyGetD resp (lit "overall_assessment") (.str [])
  let sr ← pyGetD resp (lit "should_renegotiate") (.bool false)
  return [Line.markdown (lit "### " ++ T NL (lit "Eindoordeel") (lit "Overall assessment")),
    Line.write (pyStr oa),
    Line.markdown (lit "**" ++ T NL (lit "Onderhandelen?") (lit "Should renegotiate?") ++
      lit "** " ++ pyStr sr)]

/-- All user-visible UI output of a successful comparison (source lines
344–428): success banner, major changes, overall assessment, renegotiation
flag, key points, then the optional pricing section. -/
def uiLinesCore (NL : Bool) (resp : Json) : Option (List Line) := do
  let mc ← pyGetD resp (lit "major_changes") (.arr [])
  let mjr ← renderMajorUI NL mc
  let asl ← assessmentLines NL resp
  let kpLines ← keyPointsSection NL resp
  let pcLines ← pricingSectionUI NL resp
  return Line.success (T NL (lit "Resultaat gereed") (lit "Result ready")) :: mjr ++
    asl ++ kpLines ++ pcLines

/-- One Markdown line per exported major change (source lines 442–445). -/
def mdChangeLine (ch : Json) : Option Str := do
  let tag ← tagOf ch
  let title ← pyGetD ch (lit "title") (.str [])
  let note ← pyGetD ch (lit "note") (.str [])
  return lit "- " ++ tag ++ lit " " ++ pyStr title ++ lit ": " ++ pyStr note

/-- The totals rows of the Markdown export (source lines 452–455). -/
def mdTotalsRows (cur : Json) (totals : Json) : Option (List Str) := do
  let rows ← totalsKeys.mapM (fun k => do
    let row ← pyGet totals k
    match row with
    | .obj _ => do
      let o ← pyGet row (lit "old")
      let n ← pyGet row (lit "new")
      let d ← pyGet row (lit "delta")
      return [totalsRowText cur k o n d]
    | _ => (return [] : Option (List Str)))
  return rows.flatten

/-- The lines of the Markdown export (source lines 440–465).  The raw
`overall_assessment` value is appended unconverted in the source and joined
with `"\n".join`, which raises on a non-string; the model requires a string
there accordingly. -/
def mdDiffSummary (pc : Json) : Option (List Str) := do
  let pcg ← pyGetD pc (lit "price_changes") (.obj [])
  let dsT ← pyGet pcg (lit "diff_summary")
  if pyTruthy dsT then do
    let pcv ← pyIndex pc (lit "price_changes")
    let dsv ← pyIndex pcv (lit "diff_summary")
    return [lit "- " ++ pyStr dsv]
  else return []

/-- The optional pricing summary of the Markdown export (source lines
446–457). -/
def mdPricingSection (NL : Bool) (resp : Json) : Option (List Str) := do
  let pcRaw ← pyGet resp (lit "pricing_compare")
  let pc := pyOr pcRaw (.obj [])
  if pyTruthy pc then do
    let totalsRaw ← pyGet pc (lit "totals")
    let totals := pyOr totalsRaw (.obj [])
    let curRaw ← pyGet totals (lit "currency")
    let cur := pyOr curRaw (.str [])
    let rows ← mdTotalsRows cur totals
    let dsLines ← mdDiffSummary pc
    return (lit "\n## " ++ T NL (lit "Prijsvergelijking") (lit "Pricing comparison")) ::
      rows ++ dsLines
  else return []

/-- The key-points block of the Markdown export (source lines 462–465). -/
def mdKeyPoints (NL : Bool) (resp : Json) : Option (List Str) := do
  let kpT ← pyGet resp (lit "key_points_to_verify")
  if pyTruthy kpT then do
    let kp ← pyGetD resp (lit "key_points_to_verify") (.arr [])
    let sliced2 ← pySlice kp 20
    let kelems ← pyIterList sliced2
    return (lit "\n## " ++ T NL (lit "Belangrijke controlepunten")
        (lit "Key points to verify")) ::
      kelems.map (fun k => lit "- " ++ pyStr k)
  else return []

/-- The assessment / renegotiate block of the Markdown export (source lines
459–461).  The raw `overall_assessment` value is appended unconverted in the
source and later joined with `"\n".join`, which raises on a non-string; the
model requires a string there accordingly. -/
def mdAssessment (NL : Bool) (resp : Json) : Option (List Str) := do
  let oaRaw ← pyGetD resp (lit "overall_assessment") (.str [])
  let oa ← (match oaRaw with
    | Json.str s => (some s : Option Str)
    | _ => none)
  let sr ← pyGetD resp (lit "should_renegotiate") (.bool false)
  return [lit "\n## " ++ T NL (lit "Eindoordeel") (lit "Overall assessment"), oa,
    lit "\n**" ++ T NL (lit "Onderhandelen?") (lit "Should renegotiate?") ++
      lit "** " ++ pyStr sr]

def buildMdLines (NL : Bool) (resp : Json) : Option (List Str) := do
  let mc ← pyGetD resp (lit "major_changes") (.arr [])
  let sliced ← pySlice mc 50
  let elems ← pyIterList sliced
  let chLines ← elems.mapM mdChangeLine
  let pcLines ← mdPricingSection NL resp
  let asl ← mdAssessment NL resp
  let kpLines ← mdKeyPoints NL resp
  return (lit "# Major Changes\n") :: chLines ++ pcLines ++ asl ++ kpLines

/-- Full output of a successful comparison: the UI lines plus the two
download buttons (JSON export at source lines 433–438, Markdown export at
lines 466–471). -/
def compareRender (NL : Bool) (resp : Json) : Option (List Line) := do
  let ui ← uiLinesCore NL resp
  let md ← buildMdLines NL resp
  return ui ++
    [Line.download (lit "shpr_ai_major_changes.json") (jsonDumps resp),
     Line.download (lit "shpr_ai_major_changes.md") (List.intercalate (lit "\n") md)]

/-! ## Prompts, the Groq client and the two button handlers -/

/-- Prompt template `PROMPT_ANALYZE_EN` from the source (verbatim text). -/
def PROMPT_ANALYZE_EN : Str := lit "\nYou are a legal AI assistant. Analyze the contract and return ONLY JSON:\n\x7b\n  \"key_clauses\": [\"plain-language key clauses (max 5)\"],\n  \"risks\": [\"plain-language top risks (max 5)\"],\n  \"recommendations\": [\"plain-language next steps (max 5)\"]\n\x7d\nText:\n"

/-- Prompt template `PROMPT_ANALYZE_NL` from the source (verbatim text). -/
def PROMPT_ANALYZE_NL : Str := lit "\nJe bent een juridisch AI-assistent. Analyseer het contract en geef ALLEEN JSON terug:\n\x7b\n  \"key_clauses\": [\"belangrijkste clausules in gewone taal (max 5)\"],\n  \"risks\": [\"grootste risico\x27s (max 5)\"],\n  \"recommendations\": [\"volgende stappen/adviezen (max 5)\"]\n\x7d\nTekst:\n"

/-- Prompt template `PROMPT_COMPARE_EN` from the source (verbatim text). -/
def PROMPT_COMPARE_EN : Str := lit "\nYou are a legal AI. Compare TWO contract texts (A=old, B=new). Return ONLY JSON:\n\x7b\n  \"major_changes\": [\n    \x7b\"type\": \"clause|risk|recommendation\", \"change\": \"added|removed|modified|tightened|loosened\",\n     \"title\": \"short label\", \"before\": \"snippet A\", \"after\": \"snippet B\",\n     \"impact\": \"low|medium|high\", \"note\": \"plain language\"\x7d\n  ],\n  \"overall_assessment\": \"plain language summary\",\n  \"should_renegotiate\": true,\n  \"key_points_to_verify\": [\"bullets\"],\n  \"pricing_compare\": \x7b\n    \"totals\": \x7b\n      \"currency\": \"EUR|USD|…\",\n      \"one_time\": \x7b\"old\": null, \"new\": null, \"delta\": null\x7d,\n      \"monthly\":  \x7b\"old\": null, \"new\": null, \"delta\": null\x7d,\n      \"yearly\":   \x7b\"old\": null, \"new\": null, \"delta\": null\x7d\n    \x7d,\n    \"items_added\": [\n      \x7b\"description\": \"string\", \"qty\": 1.0, \"unit\": \"user|month|year|one-time|…\",\n       \"unit_price\": 0.0, \"currency\": \"EUR|USD|…\", \"period\": \"one-time|monthly|yearly|per-use|other\",\n       \"line_total\": 0.0\x7d\n    ],\n    \"items_removed\": [\n      \x7b\"description\": \"string\"\x7d\n    ],\n    \"items_modified\": [\n      \x7b\"description\": \"string\", \"fields_changed\": \x7b\"qty\": \x7b\"old\": 0, \"new\": 0\x7d, \"unit_price\": \x7b\"old\": 0.0, \"new\": 0.0\x7d, \"period\": \x7b\"old\": \"\", \"new\": \"\"\x7d, \"line_total\": \x7b\"old\": 0.0, \"new\": 0.0\x7d\x7d\x7d\n    ],\n    \"price_changes\": \x7b\n      \"old\": [\x7b\"type\": \"increase|decrease|indexation|discount_end|other\", \"amount\": 0.0, \"percent\": 0.0, \"currency\": \"EUR\", \"effective_date\": \"YYYY-MM-DD\", \"note\": \"...\"\x7d],\n      \"new\": [\x7b\"type\": \"increase|decrease|indexation|discount_end|other\", \"amount\": 0.0, \"percent\": 0.0, \"currency\": \"EUR\", \"effective_date\": \"YYYY-MM-DD\", \"note\": \"...\"\x7d],\n      \"diff_summary\": \"plain-language summary of pricing rule differences\"\n    \x7d,\n    \"indexation\": \x7b\n      \"old\": \x7b\"method\": \"CPI|CPI+X|none|other\", \"cap\": 0.0, \"floor\": 0.0, \"frequency\": \"annual|other\"\x7d,\n      \"new\": \x7b\"method\": \"CPI|CPI+X|none|other\", \"cap\": 0.0, \"floor\": 0.0, \"frequency\": \"annual|other\"\x7d\n    \x7d\n  \x7d\n\x7d\nRules:\n- Include the \"pricing_compare\" object **only if** pricing/fees/amounts/tables, price changes, or indexation appear in either A or B. Otherwise omit the field entirely.\n- Do **not** invent numbers. If a value is not stated, set it to null or omit that leaf field.\n- Keep responses concise and JSON-valid. No extra text.\n\nRespond only with JSON.\n"

/-- Prompt template `PROMPT_COMPARE_NL` from the source (verbatim text). -/
def PROMPT_COMPARE_NL : Str := lit "\nJe bent een juridische AI. Vergelijk TWEE contractteksten (A=oud, B=nieuw). Geef ALLEEN JSON terug:\n\x7b\n  \"major_changes\": [\n    \x7b\"type\": \"clause|risk|recommendation\", \"change\": \"added|removed|modified|tightened|loosened\",\n     \"title\": \"korte titel\", \"before\": \"fragment A\", \"after\": \"fragment B\",\n     \"impact\": \"low|medium|high\", \"note\": \"uitleg in gewone taal\"\x7d\n  ],\n  \"overall_assessment\": \"samenvatting in gewone taal\",\n  \"should_renegotiate\": true,\n  \"key_points_to_verify\": [\"bullets\"],\n  \"pricing_compare\": \x7b\n    \"totals\": \x7b\n      \"currency\": \"EUR|USD|…\",\n      \"one_time\": \x7b\"old\": null, \"new\": null, \"delta\": null\x7d,\n      \"monthly\":  \x7b\"old\": null, \"new\": null, \"delta\": null\x7d,\n      \"yearly\":   \x7b\"old\": null, \"new\": null, \"delta\": null\x7d\n    \x7d,\n    \"items_added\": [\n      \x7b\"description\": \"string\", \"qty\": 1.0, \"unit\": \"gebruiker|maand|jaar|eenmalig|…\",\n       \"unit_price\": 0.0, \"currency\": \"EUR|USD|…\", \"period\": \"eenmalig|maandelijks|jaarlijks|per-gebruik|overig\",\n       \"line_total\": 0.0\x7d\n    ],\n    \"items_removed\": [\n      \x7b\"description\": \"string\"\x7d\n    ],\n    \"items_modified\": [\n      \x7b\"description\": \"string\", \"fields_changed\": \x7b\"qty\": \x7b\"old\": 0, \"new\": 0\x7d, \"unit_price\": \x7b\"old\": 0.0, \"new\": 0.0\x7d, \"period\": \x7b\"old\": \"\", \"new\": \"\"\x7d, \"line_total\": \x7b\"old\": 0.0, \"new\": 0.0\x7d\x7d\x7d\n    ],\n    \"price_changes\": \x7b\n      \"old\": [\x7b\"type\": \"increase|decrease|indexation|discount_end|other\", \"amount\": 0.0, \"percent\": 0.0, \"currency\": \"EUR\", \"effective_date\": \"YYYY-MM-DD\", \"note\": \"...\"\x7d],\n      \"new\": [\x7b\"type\": \"increase|decrease|indexation|discount_end|other\", \"amount\": 0.0, \"percent\": 0.0, \"currency\": \"EUR\", \"effective_date\": \"YYYY-MM-DD\", \"note\": \"...\"\x7d],\n      \"diff_summary\": \"korte samenvatting van verschillen in prijsregels\"\n    \x7d,\n    \"indexation\": \x7b\n      \"old\": \x7b\"method\": \"CPI|CPI+X|geen|overig\", \"cap\": 0.0, \"floor\": 0.0, \"frequency\": \"jaarlijks|overig\"\x7d,\n      \"new\": \x7b\"method\": \"CPI|CPI+X|geen|overig\", \"cap\": 0.0, \"floor\": 0.0, \"frequency\": \"jaarlijks|overig\"\x7d\n\x7d\n  \x7d\n\x7d\nRegels:\n- Voeg het object \"pricing_compare\" **alleen toe** als er in A of B prijzen/kosten/bedragen/tabellen, prijswijzigingen of indexatie voorkomen. Anders het veld weglaten.\n- Geen getallen verzinnen. Als iets niet staat vermeld: gebruik null of laat het veld weg.\n- Antwoord kort en als geldige JSON. Geen extra tekst.\n\nAntwoord alleen met JSON.\n"

/-- The environment of one LLM call: library import success (`_GROQ_OK`),
the two credential sources (`st.secrets` and `os.getenv`), and the network
round-trip as a black box from the final prompt to either the response
content string or a raised exception's message. -/
structure LlmEnv where
  groq_ok : Bool
  secrets_key : Option Str
  env_key : Option Str
  transport : Str → Except Str Str

/-- The error message of `_groq_client` (source line 252). -/
def GROQ_KEY_ERR : Str :=
  lit "Groq client/API key not available. Set GROQ_API_KEY in app secrets."

/-- Stand-in message for `json.JSONDecodeError` (its text varies with the
input; no claim depends on it). -/
def JSON_PARSE_ERR : Str := lit "Expecting value"

/-- `st.secrets.get("GROQ_API_KEY") or os.getenv("GROQ_API_KEY")`
(source line 250): the secrets value wins unless falsy (absent or empty). -/
def envApiKey (env : LlmEnv) : Option Str :=
  match env.secrets_key with
  | some s => if s.isEmpty then env.env_key else some s
  | none => env.env_key

/-- The guard of `_groq_client` (source line 251): the import must have
succeeded and the key must be truthy. -/
def groq_client_ok (env : LlmEnv) : Bool :=
  env.groq_ok && (match envApiKey env with
    | some k => !k.isEmpty
    | none => false)

/-- `_groq_client` (source lines 246–253): the `RuntimeError` is raised here,
at call time — module import and page set-up never consult the key. -/
def groq_client_check (env : LlmEnv) : Except Str Unit :=
  if groq_client_ok env then Except.ok () else Except.error GROQ_KEY_ERR

/-- The analyze prompt (source line 257): template (by language) plus the
caller-truncated text. -/
def analyzePrompt (NL : Bool) (text : Str) : Str :=
  (if NL then PROMPT_ANALYZE_NL else PROMPT_ANALYZE_EN) ++ text

/-- The compare prompt (source line 272): template (by language), then both
texts under their headers. -/
def comparePrompt (NL : Bool) (text_a text_b : Str) : Str :=
  (if NL then PROMPT_COMPARE_NL else PROMPT_COMPARE_EN) ++
    lit "\n\nTEXT A (old/oud):\n" ++ text_a ++ lit "\n\nTEXT B (new/nieuw):\n" ++ text_b

/-- `call_groq_analyze` (source lines 255–268): client check, transport,
then `json.loads` of the response content. -/
def call_groq_analyze (env : LlmEnv) (NL : Bool) (text : Str) : Except Str Json :=
  match groq_client_check env with
  | Except.error e => Except.error e
  | Except.ok _ =>
    match env.transport (analyzePrompt NL text) with
    | Except.error e => Except.error e
    | Except.ok content =>
      match jsonLoads content with
      | some j => Except.ok j
      | none => Except.error JSON_PARSE_ERR

/-- `call_groq_compare` (source lines 270–283). -/
def call_groq_compare (env : LlmEnv) (NL : Bool) (text_a text_b : Str) : Except Str Json :=
  match groq_client_check env with
  | Except.error e => Except.error e
  | Except.ok _ =>
    match env.transport (comparePrompt NL text_a text_b) with
    | Except.error e => Except.error e
    | Except.ok content =>
      match jsonLoads content with
      | some j => Except.ok j
      | none => Except.error JSON_PARSE_ERR

/-- Rendering of a successful single-document analysis (source lines
305–314). -/
def renderAnalyzeUI (NL : Bool) (data : Json) : Option (List Line) := do
  let kcRaw ← pyGetD data (lit "key_clauses") (.arr [])
  let kc ← pyIterList (pyOr kcRaw (.arr []))
  let rRaw ← pyGetD data (lit "risks") (.arr [])
  let rs ← pyIterList (pyOr rRaw (.arr []))
  let recRaw ← pyGetD data (lit "recommendations") (.arr [])
  let recs ← pyIterList (pyOr recRaw (.arr []))
  return [Line.success (T NL (lit "Analyse gereed") (lit "Analysis complete")),
      Line.subheader (T NL (lit "Belangrijkste clausules") (lit "Key clauses"))] ++
    kc.map (fun c => Line.write (lit "- " ++ pyStr c)) ++
    [Line.subheader (lit "Risks")] ++
    rs.map (fun r => Line.write (lit "- " ++ pyStr r)) ++
    [Line.subheader (T NL (lit "Aanbevelingen") (lit "Recommendations"))] ++
    recs.map (fun rec => Line.write (lit "- " ++ pyStr rec))

/-- The "Analyze" button handler (source lines 296–314): the call receives
`text[:8000]`; an exception becomes one error line and `data = None`, so
nothing further is rendered. -/
def analyzeClick (NL : Bool) (env : LlmEnv) (text : Str) : Option (List Line) :=
  match call_groq_analyze env NL (text.take 8000) with
  | Except.error e =>
    some [Line.error (T NL (lit "Analyse mislukt: ") (lit "Analysis failed: ") ++ e)]
  | Except.ok data =>
    if pyTruthy data then renderAnalyzeUI NL data else some []

/-- The "Compare" button handler (source lines 335–471): the call receives
`text_a[:10000]` and `text_b[:10000]`; an exception becomes one error line
and `comp_llm = None`, so nothing further is rendered. -/
def compareClick (NL : Bool) (env : LlmEnv) (text_a text_b : Str) : Option (List Line) :=
  match call_groq_compare env NL (text_a.take 10000) (text_b.take 10000) with
  | Except.error e =>
    some [Line.error (T NL (lit "Vergelijking mislukt: ") (lit "Comparison failed: ") ++ e)]
  | Except.ok comp_llm =>
    if pyTruthy comp_llm then compareRender NL comp_llm else some []

/-! ## Field-editing helpers used to state the claims -/

/-- Apply `f` to the value(s) stored under key `k` (identity on non-dicts). -/
def jModify (k : Str) (f : Json → Json) : Json → Json
  | .obj fs => .obj (fs.map (fun kv => if kv.1 = k then (kv.1, f kv.2) else kv))
  | j => j

/-- Remove key `k` (identity on non-dicts). -/
def removeField (k : Str) : Json → Json
  | .obj fs => .obj (fs.filter (fun kv => decide (kv.1 ≠ k)))
  | j => j

/-- Truncate an array value to its first `n` entries (identity on
non-arrays). -/
def arrTake (n : Nat) : Json → Json
  | .arr l => .arr (l.take n)
  | j => j

/-- Modelled from the claim: cap the `pricing_compare` lists at their display
limits (20 entries each; `price_changes.new` nested one level deeper). -/
def capPc (pc : Json) : Json :=
  jModify (lit "items_added") (arrTake 20) <|
    jModify (lit "items_removed") (arrTake 20) <|
      jModify (lit "items_modified") (arrTake 20) <|
        jModify (lit "price_changes") (jModify (lit "new") (arrTake 20)) pc

/-- Modelled from the claim: cap every rendered list of a comparison response
at its display limit (50 major changes, 20 key points, 20 per pricing list). -/
def capAll (resp : Json) : Json :=
  jModify (lit "major_changes") (arrTake 50) <|
    jModify (lit "key_points_to_verify") (arrTake 20) <|
      jModify (lit "pricing_compare") capPc resp

/-! ## Auxiliary notions used by the claim statements -/

mutual

/-- A structural size for `Json`, used as recursion budget and induction
measure. -/
def jMeasure : Json → Nat
  | .null => 1
  | .bool _ => 1
  | .num _ => 1
  | .str _ => 1
  | .arr l => 1 + jMeasureList l
  | .obj fs => 1 + jMeasureFields fs

/-- Summed measure of array elements. -/
def jMeasureList : List Json → Nat
  | [] => 0
  | j :: rest => 1 + jMeasure j + jMeasureList rest

/-- Summed measure of dict entries. -/
def jMeasureFields : List (Str × Json) → Nat
  | [] => 0
  | (_, v) :: rest => 1 + jMeasure v + jMeasureFields rest

end

/-- Pairwise-distinct keys of one dict level. -/
def keysNodup : List (Str × Json) → Bool
  | [] => true
  | (k, _) :: rest => !(rest.any (fun kv => decide (kv.1 = k))) && keysNodup rest

mutual

/-- Every dict in the value has pairwise-distinct keys — the invariant every
value produced by Python's `json.loads` satisfies (a `dict` cannot hold a key
twice). -/
def jWellKeyed : Json → Bool
  | .arr l => jWellKeyedList l
  | .obj fs => keysNodup fs && jWellKeyedFields fs
  | .null => true
  | .bool _ => true
  | .num _ => true
  | .str _ => true

/-- `jWellKeyed` over array elements. -/
def jWellKeyedList : List Json → Bool
  | [] => true
  | j :: rest => jWellKeyed j && jWellKeyedList rest

/-- `jWellKeyed` over dict values. -/
def jWellKeyedFields : List (Str × Json) → Bool
  | [] => true
  | (_, v) :: rest => jWellKeyed v && jWellKeyedFields rest

end

/-- The text of one recorded output line. -/
def lineText : Line → Str
  | .write s => s
  | .markdown s => s
  | .subheader s => s
  | .success s => s
  | .error s => s
  | .expanderLabel s => s
  | .download n d => n ++ d

/-- Substring test over the `Str` model. -/
def containsSub (hay needle : Str) : Bool :=
  (List.range (hay.length + 1)).any (fun i => needle.isPrefixOf (hay.drop i))

/-- The five Markdown header lines that open the pricing section and its
sub-sections — the lines whose absence witnesses "no pricing section". -/
def pricingHeaderLines (NL : Bool) : List Line :=
  [Line.markdown (lit "### " ++ T NL (lit "Prijsvergelijking") (lit "Pricing comparison")),
   Line.markdown (lit "**" ++ T NL (lit "Items toegevoegd") (lit "Items added") ++ lit ":**"),
   Line.markdown (lit "**" ++ T NL (lit "Items verwijderd") (lit "Items removed") ++ lit ":**"),
   Line.markdown (lit "**" ++ T NL (lit "Items gewijzigd") (lit "Items modified") ++ lit ":**"),
   Line.markdown (lit "**" ++ T NL (lit "Prijswijzigingen") (lit "Price change rules") ++ lit ":**")]

/-- Extractor environment with both libraries importable but never succeeding
(their `some` results are irrelevant to `.txt` uploads, whose names match
neither suffix). -/
def noLibs : Extractors :=
  { pdf_ok := true, docx_ok := true,
    pdfExtract := fun _ => none, docxExtract := fun _ => none }

/-- A `.txt` upload whose bytes `FF 61` are not valid UTF-8. -/
def badUpload : Upload := { name := some (lit "a.txt"), content := [255, 97] }

/-- Scenario upload: old contract, plain text `Monthly fee: 100 EUR`. -/
def oldFeeUpload : Upload :=
  { name := some (lit "old.txt"), content := (lit "Monthly fee: 100 EUR").map Char.toNat }

/-- Scenario upload: new contract, plain text `Monthly fee: 120 EUR`. -/
def newFeeUpload : Upload :=
  { name := some (lit "new.txt"), content := (lit "Monthly fee: 120 EUR").map Char.toNat }

/-- An added line item whose `line_total` is absent but whose `unit` is a
truthy non-string. -/
def badAddedItem : Json := Json.obj [(lit "unit", Json.num 5)]

/-- The text `renderItemAdded` produces for a dict entry whose truthy
`unit`/`period` values are strings, written out field by field (used to state
what the rendered line is; its final conditional is the `⇒`-total segment the
claim is about). -/
def itemAddedLineOf (cur : Json) (fs : List (Str × Json)) : Str :=
  let desc := (jLookup fs (lit "description")).getD (Json.str [])
  let qty := (jLookup fs (lit "qty")).getD Json.null
  let unit := pyOr ((jLookup fs (lit "unit")).getD Json.null) (Json.str [])
  let uprice := (jLookup fs (lit "unit_price")).getD Json.null
  let curr := pyOr ((jLookup fs (lit "currency")).getD Json.null) cur
  let period := pyOr ((jLookup fs (lit "period")).getD Json.null) (Json.str [])
  let total := (jLookup fs (lit "line_total")).getD Json.null
  lit "- " ++ pyStr desc ++ lit " — " ++
    List.intercalate (lit " ")
      ((if qty ≠ Json.null then [pyStr qty] else []) ++
        (if pyTruthy unit then [pyStr unit] else [])) ++
    lit " @ " ++ pyStr curr ++ lit " " ++ pyStr uprice ++ lit " " ++
    (if pyTruthy period then '/' :: pyStr period else []) ++
    (if total ≠ Json.null then lit " ⇒ " ++ pyStr curr ++ lit " " ++ pyStr total
      else [])

/-- A comparison response whose `pricing_compare.totals.monthly` has
`old = 100`, `new = 120` and `delta = null`. -/
def deltaNullResp : Json :=
  Json.obj
    [(lit "major_changes", Json.arr []),
     (lit "overall_assessment", Json.str (lit "ok")),
     (lit "should_renegotiate", Json.bool false),
     (lit "pricing_compare", Json.obj
       [(lit "totals", Json.obj
         [(lit "currency", Json.str (lit "EUR")),
          (lit "monthly", Json.obj
            [(lit "old", Json.num 100),
             (lit "new", Json.num 120),
             (lit "delta", Json.null)])])])]

/-- `deltaNullResp` with `delta = 20` instead. -/
def delta20Resp : Json :=
  Json.obj
    [(lit "major_changes", Json.arr []),
     (lit "overall_assessment", Json.str (lit "ok")),
     (lit "should_renegotiate", Json.bool false),
     (lit "pricing_compare", Json.obj
       [(lit "totals", Json.obj
         [(lit "currency", Json.str (lit "EUR")),
          (lit "monthly", Json.obj
            [(lit "old", Json.num 100),
             (lit "new", Json.num 120),
             (lit "delta", Json.num 20)])])])]

/-- An environment with the Groq import available but no credential in
either source; the transport answers the empty JSON object. -/
def envNoKey : LlmEnv :=
  { groq_ok := true, secrets_key := none, env_key := none,
    transport := fun _ => Except.ok [lbrace, rbrace] }

/-- An environment with a working credential whose transport always raises
`boom`. -/
def envBoom : LlmEnv :=
  { groq_ok := true, secrets_key := some (lit "k"), env_key := none,
    transport := fun _ => Except.error (lit "boom") }

/-- An environment with a working credential whose transport answers text
that is not JSON. -/
def envBadJson : LlmEnv :=
  { groq_ok := true, secrets_key := some (lit "k"), env_key := none,
    transport := fun _ => Except.ok (lit "not json") }

/-- Input whose head is not a decimal digit: a safe continuation after a
serialized number (the parser's `takeWhile` then stops exactly at the
boundary). -/
def noDigitHead : Str → Bool
  | [] => true
  | c :: _ => !isDigitCh c

/-! ## Theorems -/

theorem jLookup_filter_ne (fs : List (Str × Json)) (k key : Str) :
    jLookup (fs.filter fun kv => !decide (kv.1 = k)) key =
      if key = k then none else jLookup fs key := by
  induction fs with
  | nil => simp [jLookup]
  | cons kv rest ih =>
    obtain ⟨k1, v1⟩ := kv
    rw [List.filter_cons]
    by_cases h1 : k1 = k
    · rw [if_neg (by simp [h1])]
      rw [ih]
      by_cases h2 : key = k
      · simp [h2]
      · have hne : ¬ k1 = key := by
          rw [h1]; exact fun hh => h2 hh.symm
        simp [h2, jLookup, hne]
    · rw [if_pos (by simp [h1])]
      by_cases h2 : k1 = key
      · have hne : ¬ key = k := fun hk => h1 (h2.trans hk)
        simp [jLookup, h2, hne]
      · simp [jLookup, h2, ih]

/-- `renderItemAdded` on a dict whose truthy `unit` and `period` values are
strings renders exactly `itemAddedLineOf`. -/
theorem renderItemAdded_obj (cur : Json) (fs : List (Str × Json))
    (hunit : pyTruthy (pyOr ((jLookup fs (lit "unit")).getD Json.null)
        (Json.str [])) = true →
      ∃ s, pyOr ((jLookup fs (lit "unit")).getD Json.null) (Json.str []) = Json.str s)
    (hper : pyTruthy (pyOr ((jLookup fs (lit "period")).getD Json.null)
        (Json.str [])) = true →
      ∃ s, pyOr ((jLookup fs (lit "period")).getD Json.null) (Json.str []) = Json.str s) :
    renderItemAdded cur (Json.obj fs) =
      some (Line.write (itemAddedLineOf cur fs)) := by
  by_cases hu : pyTruthy (pyOr ((jLookup fs (lit "unit")).getD Json.null)
      (Json.str [])) = true
  · obtain ⟨su, hsu⟩ := hunit hu
    have hsu' : pyTruthy (Json.str su) = true := hsu ▸ hu
    by_cases hp : pyTruthy (pyOr ((jLookup fs (lit "period")).getD Json.null)
        (Json.str [])) = true
    · obtain ⟨sp, hsp⟩ := hper hp
      have hsp' : pyTruthy (Json.str sp) = true := hsp ▸ hp
      by_cases hq : (jLookup fs (lit "qty")).getD Json.null = Json.null <;>
        simp [renderItemAdded, itemAddedLineOf, pyGet, pyGetD, pyJoin,
          hq, hu, hp, hsu, hsp, hsu', hsp', pyStr, strList]
    · by_cases hq : (jLookup fs (lit "qty")).getD Json.null = Json.null <;>
        simp [renderItemAdded, itemAddedLineOf, pyGet, pyGetD, pyJoin,
          hq, hu, hp, hsu, hsu', pyStr, strList]
  · by_cases hp : pyTruthy (pyOr ((jLookup fs (lit "period")).getD Json.null)
        (Json.str [])) = true
    · obtain ⟨sp, hsp⟩ := hper hp
      have hsp' : pyTruthy (Json.str sp) = true := hsp ▸ hp
      by_cases hq : (jLookup fs (lit "qty")).getD Json.null = Json.null <;>
        simp [renderItemAdded, itemAddedLineOf, pyGet, pyGetD, pyJoin,
          hq, hu, hp, hsp, hsp', pyStr, strList]
    · by_cases hq : (jLookup fs (lit "qty")).getD Json.null = Json.null <;>
        simp [renderItemAdded, itemAddedLineOf, pyGet, pyGetD, pyJoin,
          hq, hu, hp, pyStr, strList]

/-- C5: for an authenticated session whose recorded last-activity timestamp
is more than `IDLE_TIMEOUT_MIN` minutes old, the next access clears the
session state and the subsequent access lands on the login form; otherwise
(timestamp fresh, or none recorded) the access proceeds and refreshes the
timestamp to `now`. -/
theorem C5_idle_timeout (now now2 t : Nat) (st : SessionState)
    (hauth : st.authenticated = true) :
    (st.last_active = some t → now - t > IDLE_TIMEOUT_MIN * 60 →
      ensure_authenticated now st = (clearedSession, GateOutcome.timedOut) ∧
      ensure_authenticated now2 clearedSession =
        (clearedSession, GateOutcome.loginShown)) ∧
    (st.last_active = some t → ¬ now - t > IDLE_TIMEOUT_MIN * 60 →
      ensure_authenticated now st =
        ({ st with last_active := some now }, GateOutcome.proceed)) ∧
    (st.last_active = none →
      ensure_authenticated now st =
        ({ st with last_active := some now }, GateOutcome.proceed)) := by
  refine ⟨fun hl hgt => ⟨?_, by simp [ensure_authenticated, clearedSession]⟩,
    fun hl hle => ?_, fun hl => ?_⟩
  · simp [ensure_authenticated, hauth, hl, hgt]
  · simp [ensure_authenticated, hauth, hl, hle]
  · simp [ensure_authenticated, hauth, hl]

/-- Closed instance of `C5_idle_timeout`: 4000 s − 300 s exceeds the hour,
so the access times out and the next one shows the login form; at 3600 s the
same session instead proceeds with a refreshed timestamp. -/
theorem C5_idle_timeout_witness :
    (ensure_authenticated 4000
        { authenticated := true, username := some (lit "demo"), last_active := some 300 } =
      (clearedSession, GateOutcome.timedOut) ∧
     ensure_authenticated 4100 clearedSession =
      (clearedSession, GateOutcome.loginShown)) ∧
    ensure_authenticated 3900
        { authenticated := true, username := some (lit "demo"), last_active := some 300 } =
      ({ authenticated := true, username := some (lit "demo"), last_active := some 3900 },
        GateOutcome.proceed) :=
  ⟨(C5_idle_timeout 4000 4100 300 _ (by decide)).1 (by decide) (by decide),
   (C5_idle_timeout 3900 4100 300 _ (by decide)).2.1 (by decide) (by decide)⟩

/-- C9: starting from an unauthenticated session, a submitted login
authenticates exactly when the pair occurs in `DEMO_USERS` (plain-text
equality); a non-matching pair leaves the state unchanged, shows the error,
and any subsequent gate pass stops at the login form. -/
theorem C9_login_gate (u p : Str) (st : SessionState) (now now2 : Nat)
    (hauth : st.authenticated = false) :
    ((login_submit u p st now).1.authenticated = true ↔
      slookup DEMO_USERS u = some p) ∧
    (slookup DEMO_USERS u = some p →
      login_submit u p st now =
        ({ authenticated := true, username := some u, last_active := some now },
          LoginOutcome.rerun)) ∧
    (slookup DEMO_USERS u ≠ some p →
      login_submit u p st now = (st, LoginOutcome.invalidShown) ∧
      ensure_authenticated now2 (login_submit u p st now).1 =
        ((login_submit u p st now).1, GateOutcome.loginShown)) := by
  cases hl : slookup DEMO_USERS u with
  | none => simp [login_submit, ensure_authenticated, hl, hauth]
  | some pw =>
    by_cases hp : pw = p <;>
      simp [login_submit, ensure_authenticated, hl, hp, hauth]

/-- Closed instance of `C9_login_gate`: the right demo pair signs in, a wrong
password is rejected and the gate still shows the login form. -/
theorem C9_login_gate_witness :
    login_submit (lit "demo") (lit "letmein123") clearedSession 5 =
      ({ authenticated := true, username := some (lit "demo"), last_active := some 5 },
        LoginOutcome.rerun) ∧
    login_submit (lit "demo") (lit "wrong") clearedSession 5 =
      (clearedSession, LoginOutcome.invalidShown) :=
  ⟨(C9_login_gate (lit "demo") (lit "letmein123") clearedSession 5 6 (by decide)).2.1
      (by decide),
   ((C9_login_gate (lit "demo") (lit "wrong") clearedSession 5 6 (by decide)).2.2
      (by decide)).1⟩

/-- C8: both button handlers depend only on the truncations of the extracted
texts (first 8000 characters for analyze, first 10000 for each compare text),
the truncations never exceed those lengths, and texts at most that long are
passed whole. -/
theorem C8_caller_truncation :
    (∀ NL env text, analyzeClick NL env text = analyzeClick NL env (text.take 8000)) ∧
    (∀ NL env ta tb, compareClick NL env ta tb =
      compareClick NL env (ta.take 10000) (tb.take 10000)) ∧
    (∀ text : Str, (text.take 8000).length ≤ 8000 ∧
      (text.length ≤ 8000 → text.take 8000 = text)) ∧
    (∀ text : Str, (text.take 10000).length ≤ 10000 ∧
      (text.length ≤ 10000 → text.take 10000 = text)) := by
  refine ⟨fun NL env text => ?_, fun NL env ta tb => ?_, fun text => ⟨?_, ?_⟩,
    fun text => ⟨?_, ?_⟩⟩
  · simp [analyzeClick, List.take_take]
  · simp [compareClick, List.take_take]
  · simp
  · exact fun h => List.take_of_length_le h
  · simp
  · exact fun h => List.take_of_length_le h

/-- Closed instance of `C8_caller_truncation` at a short text. -/
theorem C8_caller_truncation_witness :
    analyzeClick true envNoKey (lit "abc") =
      analyzeClick true envNoKey ((lit "abc").take 8000) :=
  C8_caller_truncation.1 true envNoKey (lit "abc")

/-- C7: a missing/empty credential makes the call itself fail with the
configuration message (raised inside `_groq_client`, hence at call time); any
failing call — configuration, transport or JSON parse — reaches the click
handler as exactly one user-visible error line with nothing else rendered. -/
theorem C7_llm_failure_handling :
    (∀ NL env ta tb, groq_client_ok env = false →
      call_groq_compare env NL ta tb = Except.error GROQ_KEY_ERR) ∧
    (∀ NL env text, groq_client_ok env = false →
      call_groq_analyze env NL text = Except.error GROQ_KEY_ERR) ∧
    (∀ NL env ta tb e,
      call_groq_compare env NL (ta.take 10000) (tb.take 10000) = Except.error e →
      compareClick NL env ta tb =
        some [Line.error (T NL (lit "Vergelijking mislukt: ")
          (lit "Comparison failed: ") ++ e)]) ∧
    (∀ NL env text e,
      call_groq_analyze env NL (text.take 8000) = Except.error e →
      analyzeClick NL env text =
        some [Line.error (T NL (lit "Analyse mislukt: ")
          (lit "Analysis failed: ") ++ e)]) ∧
    (∀ NL env ta tb e, groq_client_ok env = true →
      env.transport (comparePrompt NL ta tb) = Except.error e →
      call_groq_compare env NL ta tb = Except.error e) ∧
    (∀ NL env ta tb content, groq_client_ok env = true →
      env.transport (comparePrompt NL ta tb) = Except.ok content →
      jsonLoads content = none →
      call_groq_compare env NL ta tb = Except.error JSON_PARSE_ERR) := by
  refine ⟨fun NL env ta tb h => ?_, fun NL env text h => ?_,
    fun NL env ta tb e h => ?_, fun NL env text e h => ?_,
    fun NL env ta tb e hok ht => ?_, fun NL env ta tb content hok ht hj => ?_⟩
  · simp [call_groq_compare, groq_client_check, h]
  · simp [call_groq_analyze, groq_client_check, h]
  · simp [compareClick, h]
  · simp [analyzeClick, h]
  · simp [call_groq_compare, groq_client_check, hok, ht]
  · simp [call_groq_compare, groq_client_check, hok, ht, hj]

/-- Closed instances of `C7_llm_failure_handling`: the three failure kinds
each produce exactly the single error line. -/
theorem C7_llm_failure_handling_witness :
    compareClick true envNoKey [] [] =
      some [Line.error (lit "Vergelijking mislukt: " ++ GROQ_KEY_ERR)] ∧
    compareClick false envBoom [] [] =
      some [Line.error (lit "Comparison failed: " ++ lit "boom")] ∧
    compareClick false envBadJson [] [] =
      some [Line.error (lit "Comparison failed: " ++ JSON_PARSE_ERR)] :=
  ⟨C7_llm_failure_handling.2.2.1 true envNoKey [] [] GROQ_KEY_ERR rfl,
   C7_llm_failure_handling.2.2.1 false envBoom [] [] (lit "boom") rfl,
   C7_llm_failure_handling.2.2.1 false envBadJson [] [] JSON_PARSE_ERR rfl⟩

/-- C1 counterexample: on the upload `a.txt` with bytes `FF 61`, strict UTF-8
decoding fails and the code returns the `errors="ignore"` decode `"a"`,
whereas decoding with invalid bytes *replaced* (as the claim states) yields
`"� a"` — the two disagree. -/
theorem C1_counterexample :
    utf8DecodeStrict badUpload.content = none ∧
    read_file_to_text noLibs badUpload = lit "a" ∧
    utf8DecodeReplace badUpload.content = Char.ofNat 0xFFFD :: lit "a" ∧
    read_file_to_text noLibs badUpload ≠ utf8DecodeReplace badUpload.content := by
  refine ⟨by decide, by decide, by decide, by decide⟩

/-- C1 (amended): when the typed extractors are not applicable or fail, the
code falls through to strict UTF-8, and on a strict decode failure it returns
the `errors="ignore"` decode (invalid bytes dropped, not replaced); in every
case a string is returned. -/
theorem C1_extraction_fallback (ext : Extractors) (u : Upload)
    (hp : typedExtractStep ext.pdf_ok (lit ".pdf") ext.pdfExtract
      ((u.name.getD []).map Char.toLower) u.content = none)
    (hd : typedExtractStep ext.docx_ok (lit ".docx") ext.docxExtract
      ((u.name.getD []).map Char.toLower) u.content = none) :
    (∀ s, utf8DecodeStrict u.content = some s → read_file_to_text ext u = s) ∧
    (utf8DecodeStrict u.content = none →
      read_file_to_text ext u = utf8DecodeIgnore u.content) := by
  constructor
  · intro s hs
    simp [read_file_to_text, hp, hd, hs]
  · intro hn
    simp [read_file_to_text, hp, hd, hn]

/-- Closed instance of `C1_extraction_fallback` at the invalid-UTF-8 upload:
the result is the ignore-mode decode. -/
theorem C1_extraction_fallback_witness :
    read_file_to_text noLibs badUpload = utf8DecodeIgnore badUpload.content :=
  (C1_extraction_fallback noLibs badUpload (by decide) (by decide)).2 (by decide)

theorem mapM_mem_option {α β : Type} (f : α → Option β) :
    ∀ (l : List α) (res : List β), l.mapM f = some res → ∀ b ∈ res, ∃ a ∈ l, f a = some b := by
  intro l
  induction l with
  | nil =>
    intro res h b hb
    simp only [List.mapM_nil, Option.pure_def, Option.some.injEq] at h
    subst h
    simp at hb
  | cons a rest ih =>
    intro res h b hb
    rw [List.mapM_cons] at h
    simp only [Option.pure_def, Option.bind_eq_bind, Option.bind_eq_some,
      Option.some.injEq] at h
    obtain ⟨b0, hb0, bs, hbs, rfl⟩ := h
    rcases List.mem_cons.mp hb with rfl | hmem
    · exact ⟨a, List.mem_cons_self a rest, hb0⟩
    · obtain ⟨a', ha', hfa'⟩ := ih bs hbs b hmem
      exact ⟨a', List.mem_cons_of_mem a ha', hfa'⟩

/-- Every line of one rendered major change is a `write` or an expander
label. -/
theorem renderChangeUI_kinds (NL : Bool) (ch : Json) (lls : List Line)
    (h : renderChangeUI NL ch = some lls) :
    ∀ l ∈ lls, (∃ s, l = Line.write s) ∨ (∃ s, l = Line.expanderLabel s) := by
  simp only [renderChangeUI, Option.bind_eq_bind, Option.bind_eq_some,
    Option.pure_def, Option.some.injEq] at h
  obtain ⟨tag, htag, title, htitle, note, hnote, before, hbefore, after,
    hafter, impact, himpact, hls⟩ := h
  intro l hl
  rw [← hls] at hl
  rcases List.mem_cons.mp hl with rfl | hl2
  · exact Or.inl ⟨_, rfl⟩
  · split at hl2
    · rcases List.mem_cons.mp hl2 with rfl | hl3
      · exact Or.inr ⟨_, rfl⟩
      · simp only [List.mem_append] at hl3
        rcases hl3 with h3 | h3
        · rcases h3 with h3 | h3 <;> split at h3 <;> simp at h3 <;>
            exact Or.inl ⟨_, h3⟩
        · split at h3 <;> simp at h3
          exact Or.inl ⟨_, h3⟩
    · simp at hl2

/-- Every line of the major-changes section is its fixed header, a `write`
or an expander label. -/
theorem renderMajorUI_kinds (NL : Bool) (mc : Json) (mjr : List Line)
    (h : renderMajorUI NL mc = some mjr) :
    ∀ l ∈ mjr, l = Line.markdown (lit "###   Grote wijzigingen") ∨
      (∃ s, l = Line.write s) ∨ (∃ s, l = Line.expanderLabel s) := by
  simp only [renderMajorUI, Option.bind_eq_bind, Option.bind_eq_some,
    Option.pure_def, Option.some.injEq] at h
  obtain ⟨sliced, hsl, elems, hel, lss, hlss, hls⟩ := h
  intro l hl
  rw [← hls] at hl
  rcases List.mem_cons.mp hl with rfl | hl2
  · exact Or.inl rfl
  · rw [List.mem_flatten] at hl2
    obtain ⟨ls', hls', hmem⟩ := hl2
    obtain ⟨ch, hch, hfch⟩ := mapM_mem_option _ elems lss hlss ls' hls'
    exact Or.inr (renderChangeUI_kinds NL ch ls' hfch l hmem)

/-- The assessment block is exactly its three lines. -/
theorem assessmentLines_shape (NL : Bool) (resp : Json) (asl : List Line)
    (h : assessmentLines NL resp = some asl) :
    ∃ oa sr, asl =
      [Line.markdown (lit "### " ++ T NL (lit "Eindoordeel") (lit "Overall assessment")),
       Line.write (pyStr oa),
       Line.markdown (lit "**" ++ T NL (lit "Onderhandelen?") (lit "Should renegotiate?") ++
         lit "** " ++ pyStr sr)] := by
  simp only [assessmentLines, Option.bind_eq_bind, Option.bind_eq_some,
    Option.pure_def, Option.some.injEq] at h
  obtain ⟨oa, hoa, sr, hsr, hls⟩ := h
  exact ⟨oa, sr, hls.symm⟩

/-- Every line of the key-points section is its fixed header or a `write`. -/
theorem keyPointsSection_kinds (NL : Bool) (resp : Json) (kp : List Line)
    (h : keyPointsSection NL resp = some kp) :
    ∀ l ∈ kp, l = Line.markdown (lit "### " ++ T NL (lit "Belangrijke controlepunten")
        (lit "Key points to verify")) ∨
      (∃ s, l = Line.write s) := by
  simp only [keyPointsSection, Option.bind_eq_bind, Option.bind_eq_some,
    Option.pure_def, Option.some.injEq] at h
  obtain ⟨kpT, hkpT, h2⟩ := h
  intro l hl
  split at h2
  · simp only [Option.bind_eq_some, Option.some.injEq] at h2
    obtain ⟨kpv, hkpv, sliced, hsl, elems, hel, hls⟩ := h2
    rw [← hls] at hl
    rcases List.mem_cons.mp hl with rfl | hl2
    · exact Or.inl rfl
    · obtain ⟨k, hk, rfl⟩ := List.mem_map.mp hl2
      exact Or.inr ⟨_, rfl⟩
  · simp only [Option.some.injEq] at h2
    rw [← h2] at hl
    simp at hl

theorem mapM_flatten_mem {α β : Type} (f : α → Option (List β)) :
    ∀ (l : List α) (rows : List (List β)), l.mapM f = some rows →
      ∀ a ∈ l, ∀ r, f a = some r → ∀ x ∈ r, x ∈ rows.flatten := by
  intro l
  induction l with
  | nil =>
    intro rows h a ha
    simp at ha
  | cons a0 rest ih =>
    intro rows h a ha r hr x hx
    rw [List.mapM_cons] at h
    simp only [Option.pure_def, Option.bind_eq_bind, Option.bind_eq_some,
      Option.some.injEq] at h
    obtain ⟨r0, hr0, rs, hrs, rfl⟩ := h
    rw [List.flatten_cons]
    rcases List.mem_cons.mp ha with rfl | hmem
    · have : r0 = r := Option.some.inj (hr0.symm.trans hr)
      subst this
      exact List.mem_append.mpr (Or.inl hx)
    · exact List.mem_append.mpr (Or.inr (ih rs hrs a hmem r hr x hx))

/-- The monthly totals line belongs to the pricing section whenever the
response carries a truthy `pricing_compare` whose `totals.monthly` row is a
dict with `old = 100`, `new = 120`, `delta = 20` and the render succeeds. -/
theorem monthly_line_mem (NL : Bool) (resp pcv : Json)
    (tfs mrow : List (Str × Json)) (ls : List Line)
    (h1 : pyGet resp (lit "pricing_compare") = some pcv)
    (h2 : pyTruthy pcv = true)
    (h3 : pyGet pcv (lit "totals") = some (Json.obj tfs))
    (hm : jLookup tfs (lit "monthly") = some (Json.obj mrow))
    (ho : jLookup mrow (lit "old") = some (Json.num 100))
    (hn : jLookup mrow (lit "new") = some (Json.num 120))
    (hd : jLookup mrow (lit "delta") = some (Json.num 20))
    (hui : uiLinesCore NL resp = some ls) :
    Line.write (totalsRowText
      (pyOr ((jLookup tfs (lit "currency")).getD Json.null) (Json.str []))
      (lit "monthly") (Json.num 100) (Json.num 120) (Json.num 20)) ∈ ls := by
  have htfs : pyTruthy (Json.obj tfs) = true := by
    cases tfs with
    | nil => simp [jLookup] at hm
    | cons a rest => simp [pyTruthy]
  simp only [uiLinesCore, Option.bind_eq_bind, Option.bind_eq_some,
    Option.pure_def, Option.some.injEq] at hui
  obtain ⟨mc, hmc, mjr, hmjr, asl, hasl, kp, hkp, pcl, hpcl, hls⟩ := hui
  simp only [pricingSectionUI, h1, Option.bind_eq_bind, Option.some_bind] at hpcl
  rw [show pyOr pcv (Json.obj []) = pcv from by simp [pyOr, h2]] at hpcl
  rw [if_pos h2] at hpcl
  simp only [renderPricingUI, Option.bind_eq_bind, Option.bind_eq_some,
    Option.pure_def, Option.some.injEq] at hpcl
  obtain ⟨ct, hct, ia, hia, ir, hir, im, him, pcg, hpcg, idx, hidx, hpcl'⟩ := hpcl
  simp only [totalsSection, h3, Option.bind_eq_bind, Option.some_bind] at hct
  rw [show pyOr (Json.obj tfs) (Json.obj []) = Json.obj tfs from by
    simp [pyOr, htfs]] at hct
  simp only [pyGet, Option.some_bind, Option.bind_eq_some, Option.some.injEq] at hct
  obtain ⟨tl, htl, hctv⟩ := hct
  have hmem : Line.write (totalsRowText
      (pyOr ((jLookup tfs (lit "currency")).getD Json.null) (Json.str []))
      (lit "monthly") (Json.num 100) (Json.num 120) (Json.num 20)) ∈ tl := by
    simp only [totalsRowLines, Option.bind_eq_bind, Option.bind_eq_some,
      Option.pure_def, Option.some.injEq] at htl
    obtain ⟨rows, hrows, htl'⟩ := htl
    rw [← htl']
    exact mapM_flatten_mem _ totalsKeys rows hrows (lit "monthly") (by decide)
      [Line.write (totalsRowText
        (pyOr ((jLookup tfs (lit "currency")).getD Json.null) (Json.str []))
        (lit "monthly") (Json.num 100) (Json.num 120) (Json.num 20))]
      (by simp only [pyGet, hm, ho, hn, hd, Option.getD_some, Option.some_bind,
        Option.bind_eq_bind]) _ (List.mem_singleton.mpr rfl)
  simp only [Option.pure_def, Option.some.injEq] at hctv
  subst hctv
  rw [← hls, ← hpcl']
  simp only [List.mem_cons, List.mem_append]
  tauto

theorem jLookup_map_modify (fs : List (Str × Json)) (k key : Str) (f : Json → Json) :
    jLookup (fs.map fun kv => if kv.1 = k then (kv.1, f kv.2) else kv) key =
      if key = k then (jLookup fs k).map f else jLookup fs key := by
  induction fs with
  | nil => by_cases h : key = k <;> simp [jLookup, h]
  | cons kv rest ih =>
    obtain ⟨k1, v1⟩ := kv
    simp only [List.map_cons]
    by_cases h1 : k1 = k
    · rw [if_pos h1]
      by_cases h2 : key = k
      · subst h2
        simp only [jLookup]
        rw [if_pos h1, if_pos h1]
        simp
      · have hne : ¬ k1 = key := fun hh => h2 (hh.symm.trans h1)
        simp only [jLookup]
        rw [if_neg hne, if_neg hne, ih, if_neg h2, if_neg h2]
    · rw [if_neg h1]
      by_cases h2 : k1 = key
      · have hkk : ¬ key = k := fun hh => h1 (h2.trans hh)
        simp only [jLookup]
        rw [if_pos h2, if_neg hkk, if_pos h2]
      · by_cases h3 : key = k
        · subst h3
          simp only [jLookup]
          rw [if_neg h2, if_neg h2, ih]
          simp
        · simp only [jLookup]
          rw [if_neg h2, if_neg h2, ih, if_neg h3, if_neg h3]

theorem pyTruthy_jModify (k : Str) (f : Json → Json) (j : Json) :
    pyTruthy (jModify k f j) = pyTruthy j := by
  cases j with
  | obj fs => cases fs <;> simp [jModify, pyTruthy]
  | _ => rfl

theorem pyTruthy_arrTake (n : Nat) (hn : n ≠ 0) (j : Json) :
    pyTruthy (arrTake n j) = pyTruthy j := by
  cases j with
  | arr l =>
    cases l with
    | nil => simp [arrTake, pyTruthy]
    | cons a rest =>
      cases n with
      | zero => exact absurd rfl hn
      | succ m => simp [arrTake, pyTruthy]
  | _ => rfl

theorem pySlice_arrTake (n : Nat) (j : Json) :
    pySlice (arrTake n j) n = pySlice j n := by
  cases j <;> simp [arrTake, pySlice, List.take_take]

theorem renderMajorUI_take (NL : Bool) (v : Json) :
    renderMajorUI NL (arrTake 50 v) = renderMajorUI NL v := by
  simp only [renderMajorUI, pySlice_arrTake]

/-- Effect of `capPc` on `.get` at every key. -/
theorem pyGet_capPc (pfs : List (Str × Json)) (key : Str) :
    pyGet (capPc (Json.obj pfs)) key =
      (if key = lit "items_added" then
        some (((jLookup pfs key).map (arrTake 20)).getD Json.null)
      else if key = lit "items_removed" then
        some (((jLookup pfs key).map (arrTake 20)).getD Json.null)
      else if key = lit "items_modified" then
        some (((jLookup pfs key).map (arrTake 20)).getD Json.null)
      else if key = lit "price_changes" then
        some (((jLookup pfs key).map (jModify (lit "new") (arrTake 20))).getD Json.null)
      else pyGet (Json.obj pfs) key) := by
  simp only [capPc]
  generalize jModify (lit "new") (arrTake 20) = g
  simp only [jModify, pyGet, jLookup_map_modify]
  by_cases h1 : key = lit "items_added"
  · subst h1
    simp +decide
  by_cases h2 : key = lit "items_removed"
  · subst h2
    simp +decide
  by_cases h3 : key = lit "items_modified"
  · subst h3
    simp +decide
  by_cases h4 : key = lit "price_changes"
  · subst h4
    simp +decide
  simp only [if_neg h1, if_neg h2, if_neg h3, if_neg h4]

/-- Effect of `capPc` on `.get(key, default)` at every key. -/
theorem pyGetD_capPc (pfs : List (Str × Json)) (key : Str) (d : Json) :
    pyGetD (capPc (Json.obj pfs)) key d =
      (if key = lit "items_added" then
        some (((jLookup pfs key).map (arrTake 20)).getD d)
      else if key = lit "items_removed" then
        some (((jLookup pfs key).map (arrTake 20)).getD d)
      else if key = lit "items_modified" then
        some (((jLookup pfs key).map (arrTake 20)).getD d)
      else if key = lit "price_changes" then
        some (((jLookup pfs key).map (jModify (lit "new") (arrTake 20))).getD d)
      else pyGetD (Json.obj pfs) key d) := by
  simp only [capPc]
  generalize jModify (lit "new") (arrTake 20) = g
  simp only [jModify, pyGetD, jLookup_map_modify]
  by_cases h1 : key = lit "items_added"
  · subst h1
    simp +decide
  by_cases h2 : key = lit "items_removed"
  · subst h2
    simp +decide
  by_cases h3 : key = lit "items_modified"
  · subst h3
    simp +decide
  by_cases h4 : key = lit "price_changes"
  · subst h4
    simp +decide
  simp only [if_neg h1, if_neg h2, if_neg h3, if_neg h4]

/-- Effect of `capAll` on `.get` at every key. -/
theorem pyGet_capAll (fs : List (Str × Json)) (key : Str) :
    pyGet (capAll (Json.obj fs)) key =
      (if key = lit "major_changes" then
        some (((jLookup fs key).map (arrTake 50)).getD Json.null)
      else if key = lit "key_points_to_verify" then
        some (((jLookup fs key).map (arrTake 20)).getD Json.null)
      else if key = lit "pricing_compare" then
        some (((jLookup fs key).map capPc).getD Json.null)
      else pyGet (Json.obj fs) key) := by
  simp only [capAll, jModify, pyGet, jLookup_map_modify]
  by_cases h1 : key = lit "major_changes"
  · subst h1
    simp +decide
  by_cases h2 : key = lit "key_points_to_verify"
  · subst h2
    simp +decide
  by_cases h3 : key = lit "pricing_compare"
  · subst h3
    simp +decide
  simp only [if_neg h1, if_neg h2, if_neg h3]

/-- Effect of `capAll` on `.get(key, default)` at every key. -/
theorem pyGetD_capAll (fs : List (Str × Json)) (key : Str) (d : Json) :
    pyGetD (capAll (Json.obj fs)) key d =
      (if key = lit "major_changes" then
        some (((jLookup fs key).map (arrTake 50)).getD d)
      else if key = lit "key_points_to_verify" then
        some (((jLookup fs key).map (arrTake 20)).getD d)
      else if key = lit "pricing_compare" then
        some (((jLookup fs key).map capPc).getD d)
      else pyGetD (Json.obj fs) key d) := by
  simp only [capAll, jModify, pyGetD, jLookup_map_modify]
  by_cases h1 : key = lit "major_changes"
  · subst h1
    simp +decide
  by_cases h2 : key = lit "key_points_to_verify"
  · subst h2
    simp +decide
  by_cases h3 : key = lit "pricing_compare"
  · subst h3
    simp +decide
  simp only [if_neg h1, if_neg h2, if_neg h3]

/-- Effect of `capPc` on subscription `[key]` at every key. -/
theorem pyIndex_capPc (pfs : List (Str × Json)) (key : Str) :
    pyIndex (capPc (Json.obj pfs)) key =
      (if key = lit "items_added" then (jLookup pfs key).map (arrTake 20)
      else if key = lit "items_removed" then (jLookup pfs key).map (arrTake 20)
      else if key = lit "items_modified" then (jLookup pfs key).map (arrTake 20)
      else if key = lit "price_changes" then
        (jLookup pfs key).map (jModify (lit "new") (arrTake 20))
      else pyIndex (Json.obj pfs) key) := by
  simp only [capPc]
  generalize jModify (lit "new") (arrTake 20) = g
  simp only [jModify, pyIndex, jLookup_map_modify]
  by_cases h1 : key = lit "items_added"
  · subst h1
    simp +decide
  by_cases h2 : key = lit "items_removed"
  · subst h2
    simp +decide
  by_cases h3 : key = lit "items_modified"
  · subst h3
    simp +decide
  by_cases h4 : key = lit "price_changes"
  · subst h4
    simp +decide
  simp only [if_neg h1, if_neg h2, if_neg h3, if_neg h4]

/-- `capPc` does not change truthiness. -/
theorem pyTruthy_capPc (j : Json) : pyTruthy (capPc j) = pyTruthy j := by
  simp only [capPc, pyTruthy_jModify]

/-- The totals rows only read the untouched `totals` key, so they are
invariant under `capPc`. -/
theorem totalsSection_capPc (NL : Bool) (pfs : List (Str × Json)) :
    totalsSection NL (capPc (Json.obj pfs)) = totalsSection NL (Json.obj pfs) := by
  have hg := pyGet_capPc pfs (lit "totals")
  rw [if_neg (show ¬ lit "totals" = lit "items_added" from by decide),
    if_neg (show ¬ lit "totals" = lit "items_removed" from by decide),
    if_neg (show ¬ lit "totals" = lit "items_modified" from by decide),
    if_neg (show ¬ lit "totals" = lit "price_changes" from by decide)] at hg
  simp only [totalsSection, hg]

/-- The `items_added` sub-section only sees the first 20 added items. -/
theorem itemsAddedSection_capPc (NL : Bool) (cur : Json) (pfs : List (Str × Json)) :
    itemsAddedSection NL cur (capPc (Json.obj pfs)) =
      itemsAddedSection NL cur (Json.obj pfs) := by
  have hg := pyGet_capPc pfs (lit "items_added")
  rw [if_pos rfl] at hg
  have hgd := pyGetD_capPc pfs (lit "items_added") (Json.arr [])
  rw [if_pos rfl] at hgd
  simp only [itemsAddedSection, hg, hgd]
  simp only [pyGet, pyGetD, Option.bind_eq_bind, Option.some_bind]
  cases hl : jLookup pfs (lit "items_added") with
  | none => simp only [Option.map_none', Option.getD_none]
  | some v =>
    simp only [Option.map_some', Option.getD_some, Option.bind_eq_bind,
      Option.some_bind, pyTruthy_arrTake 20 (by decide), pySlice_arrTake]

/-- The `items_removed` sub-section only sees the first 20 removed items. -/
theorem itemsRemovedSection_capPc (NL : Bool) (pfs : List (Str × Json)) :
    itemsRemovedSection NL (capPc (Json.obj pfs)) =
      itemsRemovedSection NL (Json.obj pfs) := by
  have hg := pyGet_capPc pfs (lit "items_removed")
  rw [if_neg (show ¬ lit "items_removed" = lit "items_added" from by decide),
    if_pos rfl] at hg
  have hgd := pyGetD_capPc pfs (lit "items_removed") (Json.arr [])
  rw [if_neg (show ¬ lit "items_removed" = lit "items_added" from by decide),
    if_pos rfl] at hgd
  simp only [itemsRemovedSection, hg, hgd]
  simp only [pyGet, pyGetD, Option.bind_eq_bind, Option.some_bind]
  cases hl : jLookup pfs (lit "items_removed") with
  | none => simp only [Option.map_none', Option.getD_none]
  | some v =>
    simp only [Option.map_some', Option.getD_some, Option.bind_eq_bind,
      Option.some_bind, pyTruthy_arrTake 20 (by decide), pySlice_arrTake]

/-- The `items_modified` sub-section only sees the first 20 modified items. -/
theorem itemsModifiedSection_capPc (NL : Bool) (pfs : List (Str × Json)) :
    itemsModifiedSection NL (capPc (Json.obj pfs)) =
      itemsModifiedSection NL (Json.obj pfs) := by
  have hg := pyGet_capPc pfs (lit "items_modified")
  rw [if_neg (show ¬ lit "items_modified" = lit "items_added" from by decide),
    if_neg (show ¬ lit "items_modified" = lit "items_removed" from by decide),
    if_pos rfl] at hg
  have hgd := pyGetD_capPc pfs (lit "items_modified") (Json.arr [])
  rw [if_neg (show ¬ lit "items_modified" = lit "items_added" from by decide),
    if_neg (show ¬ lit "items_modified" = lit "items_removed" from by decide),
    if_pos rfl] at hgd
  simp only [itemsModifiedSection, hg, hgd]
  simp only [pyGet, pyGetD, Option.bind_eq_bind, Option.some_bind]
  cases hl : jLookup pfs (lit "items_modified") with
  | none => simp only [Option.map_none', Option.getD_none]
  | some v =>
    simp only [Option.map_some', Option.getD_some, Option.bind_eq_bind,
      Option.some_bind, pyTruthy_arrTake 20 (by decide), pySlice_arrTake]

/-- The `diff_summary` line never reads `price_changes.new`, so it is
invariant under `capPc`. -/
theorem diffSummaryLines_capPc (pfs : List (Str × Json)) :
    diffSummaryLines (capPc (Json.obj pfs)) = diffSummaryLines (Json.obj pfs) := by
  have hgd := pyGetD_capPc pfs (lit "price_changes") (Json.obj [])
  rw [if_neg (show ¬ lit "price_changes" = lit "items_added" from by decide),
    if_neg (show ¬ lit "price_changes" = lit "items_removed" from by decide),
    if_neg (show ¬ lit "price_changes" = lit "items_modified" from by decide),
    if_pos rfl] at hgd
  have hix := pyIndex_capPc pfs (lit "price_changes")
  rw [if_neg (show ¬ lit "price_changes" = lit "items_added" from by decide),
    if_neg (show ¬ lit "price_changes" = lit "items_removed" from by decide),
    if_neg (show ¬ lit "price_changes" = lit "items_modified" from by decide),
    if_pos rfl] at hix
  simp only [diffSummaryLines, hgd, hix]
  simp only [pyGetD, pyIndex, Option.bind_eq_bind, Option.some_bind]
  cases hl : jLookup pfs (lit "price_changes") with
  | none => simp only [Option.map_none', Option.getD_none]
  | some v =>
    simp only [Option.map_some', Option.getD_some, Option.bind_eq_bind,
      Option.some_bind]
    cases v with
    | obj gfs =>
      simp only [jModify, pyGet, pyIndex, jLookup_map_modify,
        if_neg (show ¬ lit "diff_summary" = lit "new" from by decide),
        Option.bind_eq_bind, Option.some_bind]
    | null => rfl
    | bool b => rfl
    | num n => rfl
    | str s => rfl
    | arr l => rfl

/-- The `price_changes` sub-section only sees the first 20 new rules. -/
theorem priceChangesSection_capPc (NL : Bool) (cur : Json) (pfs : List (Str × Json)) :
    priceChangesSection NL cur (capPc (Json.obj pfs)) =
      priceChangesSection NL cur (Json.obj pfs) := by
  have hg := pyGet_capPc pfs (lit "price_changes")
  rw [if_neg (show ¬ lit "price_changes" = lit "items_added" from by decide),
    if_neg (show ¬ lit "price_changes" = lit "items_removed" from by decide),
    if_neg (show ¬ lit "price_changes" = lit "items_modified" from by decide),
    if_pos rfl] at hg
  have hgd := pyGetD_capPc pfs (lit "price_changes") (Json.obj [])
  rw [if_neg (show ¬ lit "price_changes" = lit "items_added" from by decide),
    if_neg (show ¬ lit "price_changes" = lit "items_removed" from by decide),
    if_neg (show ¬ lit "price_changes" = lit "items_modified" from by decide),
    if_pos rfl] at hgd
  simp only [priceChangesSection, hg, hgd, diffSummaryLines_capPc]
  simp only [pyGet, pyGetD, Option.bind_eq_bind, Option.some_bind]
  cases hl : jLookup pfs (lit "price_changes") with
  | none =>
    simp only [Option.map_none', Option.getD_none, pyTruthy, Bool.false_eq_true,
      if_false]
  | some v =>
    simp only [Option.map_some', Option.getD_some, Option.bind_eq_bind,
      Option.some_bind, pyTruthy_jModify]
    cases v with
    | obj gfs =>
      simp only [jModify, jLookup_map_modify, eq_self_iff_true, if_true,
        Option.bind_eq_bind, Option.some_bind, Option.map_some', Option.getD_some]
      cases hn : jLookup gfs (lit "new") with
      | none => simp only [Option.map_none', Option.getD_none]
      | some w =>
        simp only [Option.map_some', Option.getD_some, pySlice_arrTake]
    | null => rfl
    | bool b => rfl
    | num n => rfl
    | str s => rfl
    | arr l => rfl

/-- The indexation lines only read the untouched `indexation` key. -/
theorem indexationLines_capPc (NL : Bool) (pfs : List (Str × Json)) :
    indexationLines NL (capPc (Json.obj pfs)) =
      indexationLines NL (Json.obj pfs) := by
  have hg := pyGet_capPc pfs (lit "indexation")
  rw [if_neg (show ¬ lit "indexation" = lit "items_added" from by decide),
    if_neg (show ¬ lit "indexation" = lit "items_removed" from by decide),
    if_neg (show ¬ lit "indexation" = lit "items_modified" from by decide),
    if_neg (show ¬ lit "indexation" = lit "price_changes" from by decide)] at hg
  have hgd := pyGetD_capPc pfs (lit "indexation") (Json.obj [])
  rw [if_neg (show ¬ lit "indexation" = lit "items_added" from by decide),
    if_neg (show ¬ lit "indexation" = lit "items_removed" from by decide),
    if_neg (show ¬ lit "indexation" = lit "items_modified" from by decide),
    if_neg (show ¬ lit "indexation" = lit "price_changes" from by decide)] at hgd
  simp only [indexationLines, hg, hgd]

/-- The whole pricing section of the UI is invariant under capping its four
lists at 20 entries. -/
theorem renderPricingUI_capPc (NL : Bool) (pc : Json) :
    renderPricingUI NL (capPc pc) = renderPricingUI NL pc := by
  cases pc with
  | obj pfs =>
    simp only [renderPricingUI, totalsSection_capPc, itemsAddedSection_capPc,
      itemsRemovedSection_capPc, itemsModifiedSection_capPc,
      priceChangesSection_capPc, indexationLines_capPc]
  | null => rfl
  | bool b => rfl
  | num n => rfl
  | str s => rfl
  | arr l => rfl

/-- The `diff_summary` rows of the Markdown export are invariant under
`capPc`. -/
theorem mdDiffSummary_capPc (pfs : List (Str × Json)) :
    mdDiffSummary (capPc (Json.obj pfs)) = mdDiffSummary (Json.obj pfs) := by
  have hgd := pyGetD_capPc pfs (lit "price_changes") (Json.obj [])
  rw [if_neg (show ¬ lit "price_changes" = lit "items_added" from by decide),
    if_neg (show ¬ lit "price_changes" = lit "items_removed" from by decide),
    if_neg (show ¬ lit "price_changes" = lit "items_modified" from by decide),
    if_pos rfl] at hgd
  have hix := pyIndex_capPc pfs (lit "price_changes")
  rw [if_neg (show ¬ lit "price_changes" = lit "items_added" from by decide),
    if_neg (show ¬ lit "price_changes" = lit "items_removed" from by decide),
    if_neg (show ¬ lit "price_changes" = lit "items_modified" from by decide),
    if_pos rfl] at hix
  simp only [mdDiffSummary, hgd, hix]
  simp only [pyGetD, pyIndex, Option.bind_eq_bind, Option.some_bind]
  cases hl : jLookup pfs (lit "price_changes") with
  | none => simp only [Option.map_none', Option.getD_none]
  | some v =>
    simp only [Option.map_some', Option.getD_some, Option.bind_eq_bind,
      Option.some_bind]
    cases v with
    | obj gfs =>
      simp only [jModify, pyGet, pyIndex, jLookup_map_modify,
        if_neg (show ¬ lit "diff_summary" = lit "new" from by decide),
        Option.bind_eq_bind, Option.some_bind]
    | null => rfl
    | bool b => rfl
    | num n => rfl
    | str s => rfl
    | arr l => rfl

/-- The optional pricing section of the UI is invariant under `capAll`. -/
theorem pricingSectionUI_capAll (NL : Bool) (fs : List (Str × Json)) :
    pricingSectionUI NL (capAll (Json.obj fs)) =
      pricingSectionUI NL (Json.obj fs) := by
  have hg := pyGet_capAll fs (lit "pricing_compare")
  rw [if_neg (show ¬ lit "pricing_compare" = lit "major_changes" from by decide),
    if_neg (show ¬ lit "pricing_compare" = lit "key_points_to_verify" from by decide),
    if_pos rfl] at hg
  simp only [pricingSectionUI, hg]
  simp only [pyGet, Option.bind_eq_bind, Option.some_bind]
  cases hl : jLookup fs (lit "pricing_compare") with
  | none => rfl
  | some v =>
    simp only [Option.map_some', Option.getD_some, pyOr, pyTruthy_capPc]
    by_cases ht : pyTruthy v = true
    · simp only [ht, if_true, pyTruthy_capPc, renderPricingUI_capPc]
    · simp only [Bool.not_eq_true] at ht
      simp only [ht, Bool.false_eq_true, if_false]

/-- The key-points section of the UI only sees the first 20 key points. -/
theorem keyPointsSection_capAll (NL : Bool) (fs : List (Str × Json)) :
    keyPointsSection NL (capAll (Json.obj fs)) =
      keyPointsSection NL (Json.obj fs) := by
  have hg := pyGet_capAll fs (lit "key_points_to_verify")
  rw [if_neg (show ¬ lit "key_points_to_verify" = lit "major_changes" from by decide),
    if_pos rfl] at hg
  have hgd := pyGetD_capAll fs (lit "key_points_to_verify") (Json.arr [])
  rw [if_neg (show ¬ lit "key_points_to_verify" = lit "major_changes" from by decide),
    if_pos rfl] at hgd
  simp only [keyPointsSection, hg, hgd]
  simp only [pyGet, pyGetD, Option.bind_eq_bind, Option.some_bind]
  cases hl : jLookup fs (lit "key_points_to_verify") with
  | none => simp only [Option.map_none', Option.getD_none]
  | some v =>
    simp only [Option.map_some', Option.getD_some, Option.bind_eq_bind,
      Option.some_bind, pyTruthy_arrTake 20 (by decide), pySlice_arrTake]

/-- The assessment block only reads untouched keys. -/
theorem assessmentLines_capAll (NL : Bool) (fs : List (Str × Json)) :
    assessmentLines NL (capAll (Json.obj fs)) =
      assessmentLines NL (Json.obj fs) := by
  have h1 := pyGetD_capAll fs (lit "overall_assessment") (Json.str [])
  rw [if_neg (show ¬ lit "overall_assessment" = lit "major_changes" from by decide),
    if_neg (show ¬ lit "overall_assessment" = lit "key_points_to_verify" from by decide),
    if_neg (show ¬ lit "overall_assessment" = lit "pricing_compare" from by decide)] at h1
  have h2 := pyGetD_capAll fs (lit "should_renegotiate") (Json.bool false)
  rw [if_neg (show ¬ lit "should_renegotiate" = lit "major_changes" from by decide),
    if_neg (show ¬ lit "should_renegotiate" = lit "key_points_to_verify" from by decide),
    if_neg (show ¬ lit "should_renegotiate" = lit "pricing_compare" from by decide)] at h2
  simp only [assessmentLines, h1, h2]

/-- The Markdown assessment block only reads untouched keys. -/
theorem mdAssessment_capAll (NL : Bool) (fs : List (Str × Json)) :
    mdAssessment NL (capAll (Json.obj fs)) = mdAssessment NL (Json.obj fs) := by
  have h1 := pyGetD_capAll fs (lit "overall_assessment") (Json.str [])
  rw [if_neg (show ¬ lit "overall_assessment" = lit "major_changes" from by decide),
    if_neg (show ¬ lit "overall_assessment" = lit "key_points_to_verify" from by decide),
    if_neg (show ¬ lit "overall_assessment" = lit "pricing_compare" from by decide)] at h1
  have h2 := pyGetD_capAll fs (lit "should_renegotiate") (Json.bool false)
  rw [if_neg (show ¬ lit "should_renegotiate" = lit "major_changes" from by decide),
    if_neg (show ¬ lit "should_renegotiate" = lit "key_points_to_verify" from by decide),
    if_neg (show ¬ lit "should_renegotiate" = lit "pricing_compare" from by decide)] at h2
  simp only [mdAssessment, h1, h2]

/-- The Markdown key-points block only sees the first 20 key points. -/
theorem mdKeyPoints_capAll (NL : Bool) (fs : List (Str × Json)) :
    mdKeyPoints NL (capAll (Json.obj fs)) = mdKeyPoints NL (Json.obj fs) := by
  have hg := pyGet_capAll fs (lit "key_points_to_verify")
  rw [if_neg (show ¬ lit "key_points_to_verify" = lit "major_changes" from by decide),
    if_pos rfl] at hg
  have hgd := pyGetD_capAll fs (lit "key_points_to_verify") (Json.arr [])
  rw [if_neg (show ¬ lit "key_points_to_verify" = lit "major_changes" from by decide),
    if_pos rfl] at hgd
  simp only [mdKeyPoints, hg, hgd]
  simp only [pyGet, pyGetD, Option.bind_eq_bind, Option.some_bind]
  cases hl : jLookup fs (lit "key_points_to_verify") with
  | none => simp only [Option.map_none', Option.getD_none]
  | some v =>
    simp only [Option.map_some', Option.getD_some, Option.bind_eq_bind,
      Option.some_bind, pyTruthy_arrTake 20 (by decide), pySlice_arrTake]

/-- The Markdown pricing summary is invariant under `capAll`. -/
theorem mdPricingSection_capAll (NL : Bool) (fs : List (Str × Json)) :
    mdPricingSection NL (capAll (Json.obj fs)) =
      mdPricingSection NL (Json.obj fs) := by
  have hg := pyGet_capAll fs (lit "pricing_compare")
  rw [if_neg (show ¬ lit "pricing_compare" = lit "major_changes" from by decide),
    if_neg (show ¬ lit "pricing_compare" = lit "key_points_to_verify" from by decide),
    if_pos rfl] at hg
  simp only [mdPricingSection, hg]
  simp only [pyGet, Option.bind_eq_bind, Option.some_bind]
  cases hl : jLookup fs (lit "pricing_compare") with
  | none => rfl
  | some v =>
    simp only [Option.map_some', Option.getD_some, pyOr, pyTruthy_capPc]
    by_cases ht : pyTruthy v = true
    · simp only [ht, if_true, pyTruthy_capPc]
      cases v with
      | obj pvfs =>
        simp only [mdDiffSummary_capPc]
        simp only [capPc]
        generalize jModify (lit "new") (arrTake 20) = g
        simp only [jModify, jLookup_map_modify,
          if_neg (show ¬ lit "totals" = lit "items_added" from by decide),
          if_neg (show ¬ lit "totals" = lit "items_removed" from by decide),
          if_neg (show ¬ lit "totals" = lit "items_modified" from by decide),
          if_neg (show ¬ lit "totals" = lit "price_changes" from by decide)]
      | null => rfl
      | bool b => rfl
      | num n => rfl
      | str s => rfl
      | arr l => rfl
    · simp only [Bool.not_eq_true] at ht
      simp only [ht, Bool.false_eq_true, if_false]

/-- C2 counterexample: in the two-upload scenario the texts extract
correctly, and `deltaNullResp` satisfies the claim's hypotheses —
`pricing_compare.totals.monthly` carries non-null `old = 100`, `new = 120` —
yet the rendered monthly row shows `(Δ None)` (the response's `delta` field)
and no UI line contains `(Δ 20)`: the code never computes `new - old`. -/
theorem C2_counterexample :
    read_file_to_text noLibs oldFeeUpload = lit "Monthly fee: 100 EUR" ∧
    read_file_to_text noLibs newFeeUpload = lit "Monthly fee: 120 EUR" ∧
    (do
      let pc ← pyIndex deltaNullResp (lit "pricing_compare")
      let t ← pyIndex pc (lit "totals")
      let m ← pyIndex t (lit "monthly")
      pyIndex m (lit "old")) = some (Json.num 100) ∧
    (do
      let pc ← pyIndex deltaNullResp (lit "pricing_compare")
      let t ← pyIndex pc (lit "totals")
      let m ← pyIndex t (lit "monthly")
      pyIndex m (lit "new")) = some (Json.num 120) ∧
    (do
      let pc ← pyIndex deltaNullResp (lit "pricing_compare")
      let t ← pyIndex pc (lit "totals")
      let m ← pyIndex t (lit "monthly")
      pyIndex m (lit "delta")) = some Json.null ∧
    (uiLinesCore true deltaNullResp).isSome = true ∧
    Line.write (totalsRowText (Json.str (lit "EUR")) (lit "monthly")
        (Json.num 100) (Json.num 120) Json.null) ∈
      (uiLinesCore true deltaNullResp).getD [] ∧
    ((uiLinesCore true deltaNullResp).getD []).all
      (fun l => !containsSub (lineText l) (lit "(Δ 20)")) = true := by
  exact ⟨by decide, by decide, by decide, by decide, by decide, by decide,
    by decide, by decide⟩

/-- C2 (amended): in the end-to-end scenario both full extracted texts occur
in the comparison prompt; and whenever the response's
`pricing_compare.totals.monthly` is a dict carrying `old = 100`, `new = 120`
and `delta = 20`, the rendered UI contains the monthly totals line, which
ends with `(Δ 20)`. -/
theorem C2_pricing_delta_scenario :
    (read_file_to_text noLibs oldFeeUpload = lit "Monthly fee: 100 EUR" ∧
     read_file_to_text noLibs newFeeUpload = lit "Monthly fee: 120 EUR" ∧
     ∃ pre mid post,
       comparePrompt true ((read_file_to_text noLibs oldFeeUpload).take 10000)
           ((read_file_to_text noLibs newFeeUpload).take 10000) =
         pre ++ lit "Monthly fee: 100 EUR" ++ mid ++ lit "Monthly fee: 120 EUR" ++ post) ∧
    (∀ (NL : Bool) (resp pcv : Json) (tfs mrow : List (Str × Json)) (ls : List Line),
      pyGet resp (lit "pricing_compare") = some pcv →
      pyTruthy pcv = true →
      pyGet pcv (lit "totals") = some (Json.obj tfs) →
      jLookup tfs (lit "monthly") = some (Json.obj mrow) →
      jLookup mrow (lit "old") = some (Json.num 100) →
      jLookup mrow (lit "new") = some (Json.num 120) →
      jLookup mrow (lit "delta") = some (Json.num 20) →
      uiLinesCore NL resp = some ls →
      Line.write (totalsRowText
          (pyOr ((jLookup tfs (lit "currency")).getD Json.null) (Json.str []))
          (lit "monthly") (Json.num 100) (Json.num 120) (Json.num 20)) ∈ ls ∧
      ∃ pre2, totalsRowText
          (pyOr ((jLookup tfs (lit "currency")).getD Json.null) (Json.str []))
          (lit "monthly") (Json.num 100) (Json.num 120) (Json.num 20) =
        pre2 ++ lit "(Δ 20)") := by
  constructor
  · refine ⟨by decide, by decide, ?_⟩
    refine ⟨PROMPT_COMPARE_NL ++ lit "\n\nTEXT A (old/oud):\n",
      lit "\n\nTEXT B (new/nieuw):\n", [], ?_⟩
    rw [show (read_file_to_text noLibs oldFeeUpload).take 10000 =
        lit "Monthly fee: 100 EUR" from by decide,
      show (read_file_to_text noLibs newFeeUpload).take 10000 =
        lit "Monthly fee: 120 EUR" from by decide]
    simp [comparePrompt, List.append_assoc]
  · intro NL resp pcv tfs mrow ls h1 h2 h3 hm ho hn hd hui
    refine ⟨monthly_line_mem NL resp pcv tfs mrow ls h1 h2 h3 hm ho hn hd hui, ?_⟩
    refine ⟨lit "- " ++ lit "monthly" ++ lit ": " ++
      pyStr (pyOr ((jLookup tfs (lit "currency")).getD Json.null) (Json.str [])) ++
      lit " " ++ pyStr (Json.num 100) ++ lit " → " ++
      pyStr (pyOr ((jLookup tfs (lit "currency")).getD Json.null) (Json.str [])) ++
      lit " " ++ pyStr (Json.num 120) ++ lit " ", ?_⟩
    conv_rhs => rw [List.append_assoc]
    rw [show (lit " " ++ lit "(Δ 20)" : Str) =
      lit " (Δ " ++ (lit "20" ++ lit ")") from by decide]
    simp [totalsRowText, List.append_assoc,
      show pyStr (Json.num 20) = lit "20" from by decide]

/-- Closed instance of `C2_pricing_delta_scenario` at `delta20Resp`: the
monthly line with `(Δ 20)` is rendered. -/
theorem C2_pricing_delta_scenario_witness :
    Line.write (totalsRowText (Json.str (lit "EUR")) (lit "monthly")
        (Json.num 100) (Json.num 120) (Json.num 20)) ∈
      (uiLinesCore true delta20Resp).getD [] :=
  (C2_pricing_delta_scenario.2 true delta20Resp
    (Json.obj [(lit "totals", Json.obj
      [(lit "currency", Json.str (lit "EUR")),
       (lit "monthly", Json.obj
         [(lit "old", Json.num 100),
          (lit "new", Json.num 120),
          (lit "delta", Json.num 20)])])])
    [(lit "currency", Json.str (lit "EUR")),
     (lit "monthly", Json.obj
       [(lit "old", Json.num 100),
        (lit "new", Json.num 120),
        (lit "delta", Json.num 20)])]
    [(lit "old", Json.num 100), (lit "new", Json.num 120), (lit "delta", Json.num 20)]
    ((uiLinesCore true delta20Resp).getD [])
    (by decide) (by decide) (by decide) (by decide) (by decide) (by decide)
    (by decide) (by decide)).1

/-- C4 counterexample: the added item `{"unit": 5}` has no `line_total`
(`.get` yields `None`), yet rendering it raises — `" ".join(bits)` receives
the non-string `5` (a `TypeError`), so the whole `items_added` section
raises rather than rendering the line. -/
theorem C4_counterexample :
    pyGet badAddedItem (lit "line_total") = some Json.null ∧
    renderItemAdded (Json.str (lit "EUR")) badAddedItem = none ∧
    itemsAddedSection true (Json.str (lit "EUR"))
      (Json.obj [(lit "items_added", Json.arr [badAddedItem])]) = none := by
  refine ⟨by decide, by decide, by decide⟩

/-- C4 (amended): for an added item that is a dict whose truthy `unit` and
`period` values are strings, a null (or absent) `line_total` renders without
error, and the line is exactly the one rendered with the `line_total` field
removed — the `⇒`-total segment is omitted entirely. -/
theorem C4_line_total_null (cur : Json) (fs : List (Str × Json))
    (htot : jLookup fs (lit "line_total") = none ∨
      jLookup fs (lit "line_total") = some Json.null)
    (hunit : pyTruthy (pyOr ((jLookup fs (lit "unit")).getD Json.null)
        (Json.str [])) = true →
      ∃ s, pyOr ((jLookup fs (lit "unit")).getD Json.null) (Json.str []) = Json.str s)
    (hper : pyTruthy (pyOr ((jLookup fs (lit "period")).getD Json.null)
        (Json.str [])) = true →
      ∃ s, pyOr ((jLookup fs (lit "period")).getD Json.null) (Json.str []) = Json.str s) :
    ∃ l, renderItemAdded cur (Json.obj fs) = some (Line.write l) ∧
      renderItemAdded cur (removeField (lit "line_total") (Json.obj fs)) =
        some (Line.write l) ∧
      l = itemAddedLineOf cur fs := by
  have hfs' : ∀ key : Str, ¬ key = lit "line_total" →
      jLookup (fs.filter fun kv => !decide (kv.1 = lit "line_total")) key =
        jLookup fs key := by
    intro key hk
    rw [jLookup_filter_ne]
    simp [hk]
  have e1 : jLookup (fs.filter fun kv => !decide (kv.1 = lit "line_total"))
      (lit "line_total") = none := by
    rw [jLookup_filter_ne]
    simp
  have htot' : (jLookup fs (lit "line_total")).getD Json.null = Json.null := by
    rcases htot with h | h <;> simp [h]
  have hdesc := hfs' (lit "description") (by decide)
  have hqty := hfs' (lit "qty") (by decide)
  have huk := hfs' (lit "unit") (by decide)
  have hup := hfs' (lit "unit_price") (by decide)
  have hcur := hfs' (lit "currency") (by decide)
  have hpk := hfs' (lit "period") (by decide)
  refine ⟨itemAddedLineOf cur fs, renderItemAdded_obj cur fs hunit hper, ?_, rfl⟩
  simp only [removeField, ne_eq, decide_not]
  rw [renderItemAdded_obj cur _ (by rw [huk]; exact hunit) (by rw [hpk]; exact hper)]
  simp [itemAddedLineOf, hdesc, hqty, huk, hup, hcur, hpk, e1, htot']

/-- Closed instance of `C4_line_total_null` at
`{"description": "Seat", "line_total": null}`. -/
theorem C4_line_total_null_witness :
    ∃ l, renderItemAdded (Json.str (lit "EUR"))
        (Json.obj [(lit "description", Json.str (lit "Seat")),
          (lit "line_total", Json.null)]) = some (Line.write l) ∧
      renderItemAdded (Json.str (lit "EUR"))
        (removeField (lit "line_total")
          (Json.obj [(lit "description", Json.str (lit "Seat")),
            (lit "line_total", Json.null)])) = some (Line.write l) ∧
      l = itemAddedLineOf (Json.str (lit "EUR"))
        [(lit "description", Json.str (lit "Seat")), (lit "line_total", Json.null)] :=
  C4_line_total_null (Json.str (lit "EUR"))
    [(lit "description", Json.str (lit "Seat")), (lit "line_total", Json.null)]
    (Or.inr (by decide))
    (fun h => absurd h (by decide)) (fun h => absurd h (by decide))

/-- C3: when the parsed comparison response has no `pricing_compare` field,
or a null/empty/falsy one, the pricing section contributes nothing to the UI
or the Markdown export (no error is raised by its absence), the whole render
is identical to that of the response with the field removed, and none of the
pricing-section header lines appears anywhere in the UI output. -/
theorem C3_no_pricing_section (NL : Bool) (fs : List (Str × Json))
    (hfalsy : pyTruthy ((jLookup fs (lit "pricing_compare")).getD Json.null) = false) :
    pricingSectionUI NL (Json.obj fs) = some [] ∧
    mdPricingSection NL (Json.obj fs) = some [] ∧
    uiLinesCore NL (Json.obj fs) =
      uiLinesCore NL (removeField (lit "pricing_compare") (Json.obj fs)) ∧
    buildMdLines NL (Json.obj fs) =
      buildMdLines NL (removeField (lit "pricing_compare") (Json.obj fs)) ∧
    (∀ ls, uiLinesCore NL (Json.obj fs) = some ls →
      ∀ l ∈ ls, l ∉ pricingHeaderLines NL) := by
  have hlk : ∀ key : Str, ¬ key = lit "pricing_compare" →
      jLookup (fs.filter fun kv => !decide (kv.1 = lit "pricing_compare")) key =
        jLookup fs key := by
    intro key hk
    rw [jLookup_filter_ne]
    simp [hk]
  have hlkp : jLookup (fs.filter fun kv => !decide (kv.1 = lit "pricing_compare"))
      (lit "pricing_compare") = none := by
    rw [jLookup_filter_ne]
    simp
  have hor : pyOr ((jLookup fs (lit "pricing_compare")).getD Json.null)
      (Json.obj []) = Json.obj [] := by
    simp only [pyOr, hfalsy]
    simp
  have h1 : pricingSectionUI NL (Json.obj fs) = some [] := by
    simp only [pricingSectionUI, pyGet, Option.bind_eq_bind, Option.some_bind, hor]
    simp [pyTruthy]
  have h2 : mdPricingSection NL (Json.obj fs) = some [] := by
    simp only [mdPricingSection, pyGet, Option.bind_eq_bind, Option.some_bind, hor]
    simp [pyTruthy]
  have e_pc2 : pricingSectionUI NL (removeField (lit "pricing_compare")
      (Json.obj fs)) = some [] := by
    simp only [removeField, ne_eq, decide_not, pricingSectionUI, pyGet,
      Option.bind_eq_bind, Option.some_bind, hlkp]
    simp [pyOr, pyTruthy]
  have e_mdpc2 : mdPricingSection NL (removeField (lit "pricing_compare")
      (Json.obj fs)) = some [] := by
    simp only [removeField, ne_eq, decide_not, mdPricingSection, pyGet,
      Option.bind_eq_bind, Option.some_bind, hlkp]
    simp [pyOr, pyTruthy]
  have e_mc : pyGetD (removeField (lit "pricing_compare") (Json.obj fs))
      (lit "major_changes") (Json.arr []) =
      pyGetD (Json.obj fs) (lit "major_changes") (Json.arr []) := by
    simp only [removeField, ne_eq, decide_not, pyGetD]
    rw [hlk _ (by decide)]
  have e_asl : assessmentLines NL (removeField (lit "pricing_compare")
      (Json.obj fs)) = assessmentLines NL (Json.obj fs) := by
    simp only [assessmentLines, removeField, ne_eq, decide_not, pyGetD]
    rw [hlk (lit "overall_assessment") (by decide),
      hlk (lit "should_renegotiate") (by decide)]
  have e_kp : keyPointsSection NL (removeField (lit "pricing_compare")
      (Json.obj fs)) = keyPointsSection NL (Json.obj fs) := by
    simp only [keyPointsSection, removeField, ne_eq, decide_not, pyGet, pyGetD]
    simp only [hlk (lit "key_points_to_verify") (by decide)]
  have e_mdasl : mdAssessment NL (removeField (lit "pricing_compare")
      (Json.obj fs)) = mdAssessment NL (Json.obj fs) := by
    simp only [mdAssessment, removeField, ne_eq, decide_not, pyGetD]
    rw [hlk (lit "overall_assessment") (by decide),
      hlk (lit "should_renegotiate") (by decide)]
  have e_mdkp : mdKeyPoints NL (removeField (lit "pricing_compare")
      (Json.obj fs)) = mdKeyPoints NL (Json.obj fs) := by
    simp only [mdKeyPoints, removeField, ne_eq, decide_not, pyGet, pyGetD]
    simp only [hlk (lit "key_points_to_verify") (by decide)]
  refine ⟨h1, h2, ?_, ?_, ?_⟩
  · simp only [uiLinesCore]
    rw [e_mc, e_asl, e_kp, h1, e_pc2]
  · simp only [buildMdLines]
    rw [e_mc, e_mdasl, e_mdkp, h2, e_mdpc2]
  · intro ls hls l hl
    simp only [uiLinesCore, Option.bind_eq_bind, Option.bind_eq_some,
      Option.pure_def, Option.some.injEq] at hls
    obtain ⟨mc, hmc, mjr, hmjr, asl, hasl, kp, hkp, pcl, hpcl, hls'⟩ := hls
    rw [h1] at hpcl
    have hpcl' : pcl = [] := (Option.some.inj hpcl).symm
    subst hpcl'
    rw [← hls'] at hl
    rcases List.mem_cons.mp hl with rfl | hl2
    · simp [pricingHeaderLines]
    simp only [List.append_eq, List.append_nil, List.mem_append] at hl2
    rcases hl2 with (hmj | hinasl) | hinkp
    · rcases renderMajorUI_kinds NL mc mjr hmjr l hmj with rfl | ⟨s, rfl⟩ | ⟨s, rfl⟩
      · cases NL <;> decide
      · simp [pricingHeaderLines]
      · simp [pricingHeaderLines]
    · obtain ⟨oa, sr, rfl⟩ := assessmentLines_shape NL (Json.obj fs) asl hasl
      simp only [List.mem_cons, List.not_mem_nil, or_false] at hinasl
      rcases hinasl with rfl | rfl | rfl
      · cases NL <;> decide
      · simp [pricingHeaderLines]
      · cases NL
        · intro hmem
          simp only [pricingHeaderLines, T, Bool.false_eq_true, if_false,
            List.mem_cons, List.not_mem_nil, or_false, Line.markdown.injEq] at hmem
          rcases hmem with h | h | h | h | h
          · exact absurd (show (lit "**S") = lit "###" from congrArg (List.take 3) h)
              (by decide)
          · exact absurd (show (lit "**S") = lit "**I" from congrArg (List.take 3) h)
              (by decide)
          · exact absurd (show (lit "**S") = lit "**I" from congrArg (List.take 3) h)
              (by decide)
          · exact absurd (show (lit "**S") = lit "**I" from congrArg (List.take 3) h)
              (by decide)
          · exact absurd (show (lit "**S") = lit "**P" from congrArg (List.take 3) h)
              (by decide)
        · intro hmem
          simp only [pricingHeaderLines, T, if_true, List.mem_cons,
            List.not_mem_nil, or_false, Line.markdown.injEq] at hmem
          rcases hmem with h | h | h | h | h
          · exact absurd (show (lit "**O") = lit "###" from congrArg (List.take 3) h)
              (by decide)
          · exact absurd (show (lit "**O") = lit "**I" from congrArg (List.take 3) h)
              (by decide)
          · exact absurd (show (lit "**O") = lit "**I" from congrArg (List.take 3) h)
              (by decide)
          · exact absurd (show (lit "**O") = lit "**I" from congrArg (List.take 3) h)
              (by decide)
          · exact absurd (show (lit "**O") = lit "**P" from congrArg (List.take 3) h)
              (by decide)
    · rcases keyPointsSection_kinds NL (Json.obj fs) kp hkp l hinkp with rfl | ⟨s, rfl⟩
      · cases NL <;> decide
      · simp [pricingHeaderLines]

/-- Closed instance of `C3_no_pricing_section`: a response with an explicit
`pricing_compare: null` renders no pricing section in UI or Markdown. -/
theorem C3_no_pricing_section_witness :
    pricingSectionUI true (Json.obj [(lit "major_changes", Json.arr []),
      (lit "pricing_compare", Json.null)]) = some [] ∧
    mdPricingSection true (Json.obj [(lit "major_changes", Json.arr []),
      (lit "pricing_compare", Json.null)]) = some [] :=
  ⟨(C3_no_pricing_section true
      [(lit "major_changes", Json.arr []), (lit "pricing_compare", Json.null)]
      (by decide)).1,
   (C3_no_pricing_section true
      [(lit "major_changes", Json.arr []), (lit "pricing_compare", Json.null)]
      (by decide)).2.1⟩

/-- C10: rendered and exported list output is bounded regardless of response
size — the full UI render and the Markdown export of every comparison
response are unchanged when `major_changes` is truncated to its first 50
entries and `key_points_to_verify`, `items_added`, `items_removed`,
`items_modified` and `price_changes.new` to their first 20 each: the output
reads at most that many entries, and entries beyond the limits are silently
dropped. -/
theorem C10_render_caps (NL : Bool) (resp : Json) :
    uiLinesCore NL (capAll resp) = uiLinesCore NL resp ∧
    buildMdLines NL (capAll resp) = buildMdLines NL resp := by
  cases resp with
  | obj fs =>
    constructor
    · have hmc := pyGetD_capAll fs (lit "major_changes") (Json.arr [])
      rw [if_pos rfl] at hmc
      simp only [uiLinesCore, hmc, assessmentLines_capAll, keyPointsSection_capAll,
        pricingSectionUI_capAll]
      simp only [pyGetD, Option.bind_eq_bind, Option.some_bind]
      cases hl : jLookup fs (lit "major_changes") with
      | none => simp only [Option.map_none', Option.getD_none]
      | some v =>
        simp only [Option.map_some', Option.getD_some, renderMajorUI_take]
    · have hmc := pyGetD_capAll fs (lit "major_changes") (Json.arr [])
      rw [if_pos rfl] at hmc
      simp only [buildMdLines, hmc, mdPricingSection_capAll, mdAssessment_capAll,
        mdKeyPoints_capAll]
      simp only [pyGetD, Option.bind_eq_bind, Option.some_bind]
      cases hl : jLookup fs (lit "major_changes") with
      | none => simp only [Option.map_none', Option.getD_none]
      | some v =>
        simp only [Option.map_some', Option.getD_some, pySlice_arrTake]
  | null => exact ⟨rfl, rfl⟩
  | bool b => exact ⟨rfl, rfl⟩
  | num n => exact ⟨rfl, rfl⟩
  | str s => exact ⟨rfl, rfl⟩
  | arr l => exact ⟨rfl, rfl⟩

theorem digitChar_isDigit (d : Nat) : isDigitCh (digitChar d) = true := by
  match d with
  | 0 => rfl
  | 1 => rfl
  | 2 => rfl
  | 3 => rfl
  | 4 => rfl
  | 5 => rfl
  | 6 => rfl
  | 7 => rfl
  | 8 => rfl
  | n + 9 => rfl

theorem digitVal_digitChar : ∀ d < 10, digitVal (digitChar d) = d := by decide

theorem isDigitCh_char_ne (c x : Char) (h : isDigitCh c = true)
    (hx : isDigitCh x = false) : c ≠ x := by
  intro he
  rw [he, hx] at h
  cases h

theorem digit_not_ws (c : Char) (h : isDigitCh c = true) : isWsCh c = false := by
  have h1 : c ≠ ' ' := isDigitCh_char_ne c ' ' h (by decide)
  have h2 : c ≠ '\n' := isDigitCh_char_ne c '\n' h (by decide)
  have h3 : c ≠ '\t' := isDigitCh_char_ne c '\t' h (by decide)
  have h4 : c ≠ '\r' := isDigitCh_char_ne c '\r' h (by decide)
  simp [isWsCh, h1, h2, h3, h4]

theorem skipWs_ws_append (ws s : Str) (h : ws.all isWsCh = true) :
    skipWs (ws ++ s) = skipWs s := by
  induction ws with
  | nil => rfl
  | cons c t ih =>
    simp only [List.all_cons, Bool.and_eq_true] at h
    simp only [List.cons_append, skipWs, List.dropWhile]
    rw [h.1]
    exact ih h.2

theorem skipWs_cons_not (c : Char) (s : Str) (h : isWsCh c = false) :
    skipWs (c :: s) = c :: s := by
  simp only [skipWs, List.dropWhile, h, cond_false]

theorem parseValue_ws (fuel : Nat) (ws s : Str) (h : ws.all isWsCh = true) :
    parseValue fuel (ws ++ s) = parseValue fuel s := by
  cases fuel with
  | zero => rfl
  | succ f => simp only [parseValue, skipWs_ws_append ws s h]

theorem parseExact_append (pat : Str) : ∀ s, parseExact pat (pat ++ s) = some s := by
  induction pat with
  | nil => intro s; rfl
  | cons c t ih =>
    intro s
    simp only [List.cons_append, parseExact, if_true]
    exact ih s

theorem takeWhile_all_append (p : Char → Bool) (xs ys : List Char)
    (h : xs.all p = true) :
    (xs ++ ys).takeWhile p = xs ++ ys.takeWhile p := by
  induction xs with
  | nil => rfl
  | cons c t ih =>
    simp only [List.all_cons, Bool.and_eq_true] at h
    simp only [List.cons_append, List.takeWhile]
    rw [h.1]
    simp only [cond_true, List.cons.injEq, true_and]
    exact ih h.2

theorem dropWhile_all_append (p : Char → Bool) (xs ys : List Char)
    (h : xs.all p = true) :
    (xs ++ ys).dropWhile p = ys.dropWhile p := by
  induction xs with
  | nil => rfl
  | cons c t ih =>
    simp only [List.all_cons, Bool.and_eq_true] at h
    simp only [List.cons_append, List.dropWhile]
    rw [h.1]
    simp only [cond_true]
    exact ih h.2

theorem natDigitsAux_all (fuel n : Nat) :
    (natDigitsAux fuel n).all isDigitCh = true := by
  induction fuel generalizing n with
  | zero => rfl
  | succ f ih =>
    simp only [natDigitsAux]
    by_cases h : n < 10
    · rw [if_pos h]
      simp [digitChar_isDigit]
    · rw [if_neg h]
      simp [List.all_append, ih, digitChar_isDigit]

theorem natDigitsAux_ne_nil (fuel n : Nat) (h : 0 < fuel) :
    natDigitsAux fuel n ≠ [] := by
  cases fuel with
  | zero => omega
  | succ f =>
    simp only [natDigitsAux]
    by_cases h10 : n < 10
    · rw [if_pos h10]
      simp
    · rw [if_neg h10]
      simp

theorem natDigitsAux_val (n : Nat) : ∀ fuel, n < fuel →
    (natDigitsAux fuel n).foldl (fun a c => 10 * a + digitVal c) 0 = n := by
  induction n using Nat.strong_induction_on with
  | _ n ih =>
    intro fuel hf
    cases fuel with
    | zero => omega
    | succ f =>
      simp only [natDigitsAux]
      by_cases h10 : n < 10
      · rw [if_pos h10]
        simp only [List.foldl_cons, List.foldl_nil]
        rw [digitVal_digitChar n h10]
        omega
      · rw [if_neg h10]
        have hdiv : n / 10 < n := Nat.div_lt_self (by omega) (by omega)
        rw [List.foldl_append, ih (n / 10) hdiv f (by omega)]
        simp only [List.foldl_cons, List.foldl_nil]
        rw [digitVal_digitChar (n % 10) (by omega)]
        omega

theorem natStr_ne_nil (n : Nat) : natStr n ≠ [] :=
  natDigitsAux_ne_nil (n + 1) n (by omega)

theorem parseDigits_natStr (n : Nat) (rest : Str) (hr : noDigitHead rest = true) :
    parseDigits (natStr n ++ rest) = some (n, rest) := by
  have hall : (natStr n).all isDigitCh = true := natDigitsAux_all (n + 1) n
  have hrtw : rest.takeWhile isDigitCh = [] := by
    cases rest with
    | nil => rfl
    | cons c t =>
      simp only [noDigitHead, Bool.not_eq_true'] at hr
      simp [List.takeWhile, hr]
  have hrdw : rest.dropWhile isDigitCh = rest := by
    cases rest with
    | nil => rfl
    | cons c t =>
      simp only [noDigitHead, Bool.not_eq_true'] at hr
      simp [List.dropWhile, hr]
  have hemp : (natStr n).isEmpty = false := by
    cases h : natStr n with
    | nil => exact absurd h (natStr_ne_nil n)
    | cons d t => rfl
  simp only [parseDigits, takeWhile_all_append isDigitCh _ rest hall, hrtw,
    List.append_nil, dropWhile_all_append isDigitCh _ rest hall, hrdw, hemp,
    Bool.false_eq_true, if_false, Option.some.injEq, Prod.mk.injEq, and_true]
  exact natDigitsAux_val n (n + 1) (by omega)

theorem natStr_head (m : Nat) :
    ∃ d t, natStr m = d :: t ∧ isDigitCh d = true := by
  cases h : natStr m with
  | nil => exact absurd h (natStr_ne_nil m)
  | cons d t =>
    refine ⟨d, t, rfl, ?_⟩
    have hall := natDigitsAux_all (m + 1) m
    rw [show natDigitsAux (m + 1) m = natStr m from rfl, h] at hall
    simp only [List.all_cons, Bool.and_eq_true] at hall
    exact hall.1

theorem parseNum_intStr (n : Int) (rest : Str) (hr : noDigitHead rest = true) :
    parseNum (intStr n ++ rest) = some (Json.num n, rest) := by
  cases n with
  | ofNat m =>
    obtain ⟨d, t, hd, hdig⟩ := natStr_head m
    have hne : d ≠ '-' := isDigitCh_char_ne d '-' hdig (by decide)
    show parseNum (natStr m ++ rest) = _
    rw [hd, List.cons_append, parseNum.eq_def]
    split
    · next s heq =>
      injection heq with h1 h2
      exact absurd h1 hne
    · rw [← List.cons_append, ← hd, parseDigits_natStr m rest hr]
      rfl
  | negSucc m =>
    show parseNum (('-' :: natStr (m + 1)) ++ rest) = _
    rw [List.cons_append]
    simp only [parseNum]
    rw [parseDigits_natStr (m + 1) rest hr]
    simp only [Option.map_some', Option.some.injEq, Prod.mk.injEq, and_true,
      Json.num.injEq]
    rw [Int.negSucc_coe]

theorem intStr_head (n : Int) :
    ∃ d t, intStr n = d :: t ∧ (d = '-' ∨ isDigitCh d = true) := by
  cases n with
  | ofNat m =>
    obtain ⟨d, t, hd, hdig⟩ := natStr_head m
    exact ⟨d, t, hd, Or.inr hdig⟩
  | negSucc m => exact ⟨'-', natStr (m + 1), rfl, Or.inl rfl⟩

theorem hexVal_hexDigitChar : ∀ d < 16, hexVal (hexDigitChar d) = some d := by decide

theorem parseStringBody_esc (s : Str) : ∀ fuel rest,
    ((s.map escapeChar).flatten).length + 1 ≤ fuel →
    parseStringBody fuel ((s.map escapeChar).flatten ++ '"' :: rest) =
      some (s, rest) := by
  induction s with
  | nil =>
    intro fuel rest hf
    cases fuel with
    | zero => omega
    | succ f => rfl
  | cons c cs ih =>
    intro fuel rest hf
    cases fuel with
    | zero => omega
    | succ f =>
      rw [List.map_cons, List.flatten_cons, List.append_assoc]
      have hle := hf
      rw [List.map_cons, List.flatten_cons, List.length_append] at hle
      by_cases h1 : c = '"'
      · subst h1
        have hred : parseStringBody (f + 1)
            (escapeChar '"' ++ ((cs.map escapeChar).flatten ++ '"' :: rest)) =
            (parseStringBody f ((cs.map escapeChar).flatten ++ '"' :: rest)).bind
              (fun p => some ('"' :: p.1, p.2)) := rfl
        rw [hred, ih f rest (by simp only [show escapeChar '"' = ['\\', '"'] from rfl,
          List.length_cons, List.length_nil] at hle; omega)]
        rfl
      by_cases h2 : c = '\\'
      · subst h2
        have hred : parseStringBody (f + 1)
            (escapeChar '\\' ++ ((cs.map escapeChar).flatten ++ '"' :: rest)) =
            (parseStringBody f ((cs.map escapeChar).flatten ++ '"' :: rest)).bind
              (fun p => some ('\\' :: p.1, p.2)) := rfl
        rw [hred, ih f rest (by simp only [show escapeChar '\\' = ['\\', '\\'] from rfl,
          List.length_cons, List.length_nil] at hle; omega)]
        rfl
      by_cases h3 : c.toNat < 0x20
      · by_cases hb : c = Char.ofNat 8
        · subst hb
          have hred : parseStringBody (f + 1)
              (escapeChar (Char.ofNat 8) ++ ((cs.map escapeChar).flatten ++ '"' :: rest)) =
              (parseStringBody f ((cs.map escapeChar).flatten ++ '"' :: rest)).bind
                (fun p => some (Char.ofNat 8 :: p.1, p.2)) := rfl
          rw [hred, ih f rest (by
            simp only [show escapeChar (Char.ofNat 8) = ['\\', 'b'] from rfl,
              List.length_cons, List.length_nil] at hle; omega)]
          rfl
        by_cases ht : c = '\t'
        · subst ht
          have hred : parseStringBody (f + 1)
              (escapeChar '\t' ++ ((cs.map escapeChar).flatten ++ '"' :: rest)) =
              (parseStringBody f ((cs.map escapeChar).flatten ++ '"' :: rest)).bind
                (fun p => some ('\t' :: p.1, p.2)) := rfl
          rw [hred, ih f rest (by
            simp only [show escapeChar '\t' = ['\\', 't'] from rfl,
              List.length_cons, List.length_nil] at hle; omega)]
          rfl
        by_cases hn : c = '\n'
        · subst hn
          have hred : parseStringBody (f + 1)
              (escapeChar '\n' ++ ((cs.map escapeChar).flatten ++ '"' :: rest)) =
              (parseStringBody f ((cs.map escapeChar).flatten ++ '"' :: rest)).bind
                (fun p => some ('\n' :: p.1, p.2)) := rfl
          rw [hred, ih f rest (by
            simp only [show escapeChar '\n' = ['\\', 'n'] from rfl,
              List.length_cons, List.length_nil] at hle; omega)]
          rfl
        by_cases hff : c = Char.ofNat 12
        · subst hff
          have hred : parseStringBody (f + 1)
              (escapeChar (Char.ofNat 12) ++ ((cs.map escapeChar).flatten ++ '"' :: rest)) =
              (parseStringBody f ((cs.map escapeChar).flatten ++ '"' :: rest)).bind
                (fun p => some (Char.ofNat 12 :: p.1, p.2)) := rfl
          rw [hred, ih f rest (by
            simp only [show escapeChar (Char.ofNat 12) = ['\\', 'f'] from rfl,
              List.length_cons, List.length_nil] at hle; omega)]
          rfl
        by_cases hcr : c = '\r'
        · subst hcr
          have hred : parseStringBody (f + 1)
              (escapeChar '\r' ++ ((cs.map escapeChar).flatten ++ '"' :: rest)) =
              (parseStringBody f ((cs.map escapeChar).flatten ++ '"' :: rest)).bind
                (fun p => some ('\r' :: p.1, p.2)) := rfl
          rw [hred, ih f rest (by
            simp only [show escapeChar '\r' = ['\\', 'r'] from rfl,
              List.length_cons, List.length_nil] at hle; omega)]
          rfl
        · have hesc : escapeChar c =
              ['\\', 'u', '0', '0', hexDigitChar (c.toNat / 16),
                hexDigitChar (c.toNat % 16)] := by
            simp [escapeChar, h1, h2, h3, hb, ht, hn, hff, hcr]
          rw [hesc]
          simp only [List.cons_append, List.nil_append]
          have hred : parseStringBody (f + 1)
              ('\\' :: 'u' :: '0' :: '0' :: hexDigitChar (c.toNat / 16) ::
                hexDigitChar (c.toNat % 16) ::
                ((cs.map escapeChar).flatten ++ '"' :: rest)) =
              (hexVal (hexDigitChar (c.toNat / 16))).bind (fun v3 =>
                (hexVal (hexDigitChar (c.toNat % 16))).bind (fun v4 =>
                  (parseStringBody f ((cs.map escapeChar).flatten ++ '"' :: rest)).bind
                    (fun p =>
                      some (Char.ofNat (0 * 4096 + 0 * 256 + v3 * 16 + v4) :: p.1,
                        p.2)))) := rfl
          rw [hred, hexVal_hexDigitChar (c.toNat / 16) (by omega),
            hexVal_hexDigitChar (c.toNat % 16) (by omega), Option.some_bind,
            Option.some_bind,
            ih f rest (by rw [hesc] at hle; simp only [List.length_cons,
              List.length_nil] at hle; omega), Option.some_bind]
          have harith : 0 * 4096 + 0 * 256 + (c.toNat / 16) * 16 + c.toNat % 16 =
              c.toNat := by omega
          rw [harith, Char.ofNat_toNat]
      · have hesc : escapeChar c = [c] := by simp [escapeChar, h1, h2, h3]
        rw [hesc, List.singleton_append]
        simp only [parseStringBody]
        rw [if_neg h1, if_neg h2]
        rw [ih f rest (by rw [hesc] at hle; simp only [List.length_cons,
          List.length_nil] at hle; omega)]
        rfl

theorem intercalate_singleton (sep a : Str) : List.intercalate sep [a] = a := by
  simp [List.intercalate, List.intersperse]

theorem intercalate_cons2 (sep a b : Str) (rest : List Str) :
    List.intercalate sep (a :: b :: rest) =
      a ++ sep ++ List.intercalate sep (b :: rest) := by
  simp [List.intercalate, List.intersperse]

theorem intercalate_cons_ne (sep a : Str) (l : List Str) (h : l ≠ []) :
    List.intercalate sep (a :: l) = a ++ sep ++ List.intercalate sep l := by
  cases l with
  | nil => exact absurd rfl h
  | cons b t => exact intercalate_cons2 sep a b t

theorem jMeasure_pos (j : Json) : 1 ≤ jMeasure j := by
  cases j <;> simp [jMeasure]

theorem dumpsVal_head (ind : Nat) (j : Json) :
    ∃ c t, dumpsVal ind j = c :: t ∧ isWsCh c = false ∧ c ≠ ']' := by
  cases j with
  | null => exact ⟨'n', lit "ull", rfl, by decide, by decide⟩
  | bool b =>
    cases b with
    | true => exact ⟨'t', lit "rue", rfl, by decide, by decide⟩
    | false => exact ⟨'f', lit "alse", rfl, by decide, by decide⟩
  | num n =>
    obtain ⟨d, t, hd, hp⟩ := intStr_head n
    refine ⟨d, t, hd, ?_, ?_⟩
    · rcases hp with rfl | hdig
      · decide
      · exact digit_not_ws d hdig
    · rcases hp with rfl | hdig
      · decide
      · exact isDigitCh_char_ne d ']' hdig (by decide)
  | str s =>
    exact ⟨'"', (s.map escapeChar).flatten ++ ['"'], rfl, by decide, by decide⟩
  | arr l =>
    cases l with
    | nil => exact ⟨'[', [']'], rfl, by decide, by decide⟩
    | cons e es =>
      exact ⟨'[', '\n' :: List.intercalate (lit ",\n") (dumpsItems (ind + 2) (e :: es)) ++
        '\n' :: spacesN ind ++ [']'], rfl, by decide, by decide⟩
  | obj fs =>
    cases fs with
    | nil => exact ⟨lbrace, [rbrace], rfl, by decide, by decide⟩
    | cons f fs' =>
      exact ⟨lbrace, '\n' :: List.intercalate (lit ",\n") (dumpsFields (ind + 2) (f :: fs')) ++
        '\n' :: spacesN ind ++ [rbrace], rfl, by decide, by decide⟩

theorem dictInsert_append (acc : List (Str × Json)) (k : Str) (v : Json)
    (h : acc.all (fun kv => !decide (kv.1 = k)) = true) :
    dictInsert acc k v = acc ++ [(k, v)] := by
  induction acc with
  | nil => rfl
  | cons a t ih =>
    obtain ⟨k0, v0⟩ := a
    simp only [List.all_cons, Bool.and_eq_true, Bool.not_eq_true',
      decide_eq_false_iff_not] at h
    simp only [dictInsert]
    rw [if_neg h.1]
    simp only [List.cons_append, List.cons.injEq, true_and]
    exact ih h.2

theorem keysNodup_head_notin (acc : List (Str × Json)) (k : Str) (v : Json)
    (ps : List (Str × Json)) :
    keysNodup (acc ++ (k, v) :: ps) = true →
    acc.all (fun kv => !decide (kv.1 = k)) = true := by
  induction acc with
  | nil => intro h; rfl
  | cons a t ih =>
    obtain ⟨k0, v0⟩ := a
    intro h
    simp only [List.cons_append, keysNodup, Bool.and_eq_true, Bool.not_eq_true',
      List.append_eq] at h
    simp only [List.all_cons, Bool.and_eq_true, Bool.not_eq_true',
      decide_eq_false_iff_not]
    constructor
    · intro hkk
      have hany : (t ++ (k, v) :: ps).any (fun kv => decide (kv.1 = k0)) = true := by
        rw [List.any_eq_true]
        exact ⟨(k, v), by simp, by simp [hkk]⟩
      rw [h.1] at hany
      cases hany
    · exact ih h.2

theorem buildDict_go (ps : List (Str × Json)) :
    ∀ acc, keysNodup (acc ++ ps) = true →
    ps.foldl (fun d kv => dictInsert d kv.1 kv.2) acc = acc ++ ps := by
  induction ps with
  | nil => intro acc h; simp
  | cons a t ih =>
    obtain ⟨k, v⟩ := a
    intro acc h
    simp only [List.foldl_cons]
    rw [dictInsert_append acc k v (keysNodup_head_notin acc k v t h)]
    rw [ih (acc ++ [(k, v)]) (by rwa [List.append_assoc, List.singleton_append])]
    simp [List.append_assoc]

theorem buildDict_nodup (ps : List (Str × Json)) (h : keysNodup ps = true) :
    buildDict ps = ps := by
  have := buildDict_go ps [] (by simpa using h)
  simpa [buildDict] using this

mutual

theorem jMeasure_le_dumps (j : Json) (ind : Nat) :
    jMeasure j ≤ (dumpsVal ind j).length :=
  match j with
  | .null => by
    rw [show dumpsVal ind Json.null = lit "null" from rfl]
    decide
  | .bool true => by
    rw [show dumpsVal ind (Json.bool true) = lit "true" from rfl]
    decide
  | .bool false => by
    rw [show dumpsVal ind (Json.bool false) = lit "false" from rfl]
    decide
  | .num n => by
    obtain ⟨d, t, hd, _⟩ := intStr_head n
    rw [show dumpsVal ind (Json.num n) = intStr n from rfl, hd]
    simp [jMeasure]
  | .str s => by
    rw [show dumpsVal ind (Json.str s) = escString s from rfl]
    simp [jMeasure, escString]
  | .arr [] => by
    rw [show dumpsVal ind (Json.arr []) = lit "[]" from rfl]
    decide
  | .arr (e :: es) => by
    have hl := jMeasureList_le_dumps (e :: es) (ind + 2)
    simp only [jMeasure, dumpsVal, List.length_cons, List.length_append,
      spacesN, List.length_replicate, List.length_nil]
    omega
  | .obj [] => by
    rw [show dumpsVal ind (Json.obj []) = [lbrace, rbrace] from rfl]
    decide
  | .obj (f :: fs') => by
    have hl := jMeasureFields_le_dumps (f :: fs') (ind + 2)
    simp only [jMeasure, dumpsVal, List.length_cons, List.length_append,
      spacesN, List.length_replicate, List.length_nil]
    omega

theorem jMeasureList_le_dumps (l : List Json) (ind : Nat) :
    jMeasureList l ≤
      (List.intercalate (lit ",\n") (dumpsItems ind l)).length + 1 :=
  match l with
  | [] => by simp [jMeasureList]
  | [e] => by
    have he := jMeasure_le_dumps e ind
    simp only [jMeasureList, dumpsItems, intercalate_singleton,
      List.length_append, spacesN, List.length_replicate]
    omega
  | e :: e2 :: rest => by
    have he := jMeasure_le_dumps e ind
    have ht := jMeasureList_le_dumps (e2 :: rest) ind
    simp only [jMeasureList, dumpsItems, intercalate_cons2, List.length_append,
      spacesN, List.length_replicate,
      show (lit ",\n").length = 2 from rfl] at *
    omega

theorem jMeasureFields_le_dumps (fs : List (Str × Json)) (ind : Nat) :
    jMeasureFields fs ≤
      (List.intercalate (lit ",\n") (dumpsFields ind fs)).length + 1 :=
  match fs with
  | [] => by simp [jMeasureFields]
  | [(k, v)] => by
    have hv := jMeasure_le_dumps v ind
    simp only [jMeasureFields, dumpsFields, intercalate_singleton,
      List.length_append, spacesN, List.length_replicate, List.length_cons]
    omega
  | (k, v) :: f2 :: rest => by
    have hv := jMeasure_le_dumps v ind
    have ht := jMeasureFields_le_dumps (f2 :: rest) ind
    simp only [jMeasureFields, dumpsFields, intercalate_cons2, List.length_append,
      spacesN, List.length_replicate, List.length_cons,
      show (lit ",\n").length = 2 from rfl] at *
    omega

end

theorem spacesN_ws (n : Nat) : (spacesN n).all isWsCh = true := by
  induction n with
  | zero => rfl
  | succ m ih =>
    simp only [spacesN, List.replicate_succ, List.all_cons, Bool.and_eq_true]
    exact ⟨by decide, ih⟩

theorem parseValue_dumps_null (f ind : Nat) (rest : Str) :
    parseValue (f + 1) (dumpsVal ind Json.null ++ rest) = some (Json.null, rest) := rfl

theorem parseValue_dumps_bool (f ind : Nat) (b : Bool) (rest : Str) :
    parseValue (f + 1) (dumpsVal ind (Json.bool b) ++ rest) =
      some (Json.bool b, rest) := by
  cases b with
  | true => rfl
  | false => rfl

theorem parseValue_dumps_str (f ind : Nat) (s : Str) (rest : Str) :
    parseValue (f + 1) (dumpsVal ind (Json.str s) ++ rest) =
      some (Json.str s, rest) := by
  rw [show dumpsVal ind (Json.str s) ++ rest =
      '"' :: ((s.map escapeChar).flatten ++ '"' :: rest) from by
    simp [dumpsVal, escString, List.append_assoc]]
  have hred : parseValue (f + 1)
      ('"' :: ((s.map escapeChar).flatten ++ '"' :: rest)) =
      (parseStringBody ((s.map escapeChar).flatten ++ '"' :: rest).length
        ((s.map escapeChar).flatten ++ '"' :: rest)).map
        (fun p => (Json.str p.1, p.2)) := rfl
  rw [hred, parseStringBody_esc s _ rest (by
    simp only [List.length_append, List.length_cons]
    omega)]
  rfl

theorem parseValue_dumps_num (f ind : Nat) (n : Int) (rest : Str)
    (hr : noDigitHead rest = true) :
    parseValue (f + 1) (dumpsVal ind (Json.num n) ++ rest) =
      some (Json.num n, rest) := by
  obtain ⟨d, t, hd, hp⟩ := intStr_head n
  have hnum : parseNum (d :: (t ++ rest)) = some (Json.num n, rest) := by
    rw [← List.cons_append, ← hd]
    exact parseNum_intStr n rest hr
  have hws : isWsCh d = false := by
    rcases hp with rfl | hdig
    · decide
    · exact digit_not_ws d hdig
  have h1 : ¬ d = 'n' := by
    rcases hp with rfl | hdig
    · decide
    · exact isDigitCh_char_ne d 'n' hdig (by decide)
  have h2 : ¬ d = 't' := by
    rcases hp with rfl | hdig
    · decide
    · exact isDigitCh_char_ne d 't' hdig (by decide)
  have h3 : ¬ d = 'f' := by
    rcases hp with rfl | hdig
    · decide
    · exact isDigitCh_char_ne d 'f' hdig (by decide)
  have h4 : ¬ d = '"' := by
    rcases hp with rfl | hdig
    · decide
    · exact isDigitCh_char_ne d '"' hdig (by decide)
  rw [show dumpsVal ind (Json.num n) ++ rest = d :: (t ++ rest) from by
    rw [show dumpsVal ind (Json.num n) = intStr n from rfl, hd, List.cons_append]]
  simp only [parseValue, skipWs_cons_not d _ hws]
  have hp2 : (decide (d = '-') || isDigitCh d) = true := by
    rcases hp with rfl | hdig
    · rfl
    · simp [hdig]
  rw [if_neg h1, if_neg h2, if_neg h3, if_neg h4, if_pos hp2]
  exact hnum

theorem skipWs_IC_items (ind2 : Nat) (e : Json) (es : List Json) (suf : Str) :
    ∃ c0 t0, skipWs (List.intercalate (lit ",\n") (dumpsItems ind2 (e :: es)) ++ suf) =
      c0 :: t0 ∧ isWsCh c0 = false ∧ c0 ≠ ']' := by
  obtain ⟨c0, t0, hdv, hnws, hne⟩ := dumpsVal_head ind2 e
  cases es with
  | nil =>
    refine ⟨c0, t0 ++ suf, ?_, hnws, hne⟩
    rw [show dumpsItems ind2 [e] = [spacesN ind2 ++ dumpsVal ind2 e] from rfl,
      intercalate_singleton,
      show (spacesN ind2 ++ dumpsVal ind2 e) ++ suf =
        spacesN ind2 ++ (dumpsVal ind2 e ++ suf) from by simp [List.append_assoc],
      skipWs_ws_append _ _ (spacesN_ws ind2), hdv, List.cons_append,
      skipWs_cons_not c0 _ hnws]
  | cons e2 es' =>
    refine ⟨c0, t0 ++ (lit ",\n" ++
      (List.intercalate (lit ",\n") (dumpsItems ind2 (e2 :: es')) ++ suf)), ?_, hnws, hne⟩
    rw [show dumpsItems ind2 (e :: e2 :: es') =
        (spacesN ind2 ++ dumpsVal ind2 e) :: dumpsItems ind2 (e2 :: es') from rfl,
      intercalate_cons_ne _ _ _ (by simp [dumpsItems]),
      show ((spacesN ind2 ++ dumpsVal ind2 e) ++ lit ",\n" ++
          List.intercalate (lit ",\n") (dumpsItems ind2 (e2 :: es'))) ++ suf =
        spacesN ind2 ++ (dumpsVal ind2 e ++ (lit ",\n" ++
          (List.intercalate (lit ",\n") (dumpsItems ind2 (e2 :: es')) ++ suf)))
        from by simp [List.append_assoc],
      skipWs_ws_append _ _ (spacesN_ws ind2), hdv, List.cons_append,
      skipWs_cons_not c0 _ hnws]

theorem parseObjFields_ws (fuel : Nat) (ws s : Str) (h : ws.all isWsCh = true) :
    parseObjFields fuel (ws ++ s) = parseObjFields fuel s := by
  cases fuel with
  | zero => rfl
  | succ f => simp only [parseObjFields, skipWs_ws_append ws s h]

theorem all_ws_nl_spaces (n : Nat) : ('\n' :: spacesN n).all isWsCh = true := by
  simp only [List.all_cons, Bool.and_eq_true]
  exact ⟨by decide, spacesN_ws n⟩

theorem all_ws_nl_close (close : Str) (h : close.all isWsCh = true) :
    ('\n' :: close).all isWsCh = true := by
  simp only [List.all_cons, Bool.and_eq_true]
  exact ⟨by decide, h⟩

theorem skipWs_nl_close (close rest : Str) (c : Char) (hclose : close.all isWsCh = true)
    (hc : isWsCh c = false) :
    skipWs ('\n' :: (close ++ c :: rest)) = c :: rest := by
  have h1 : skipWs (('\n' :: close) ++ (c :: rest)) = skipWs (c :: rest) :=
    skipWs_ws_append _ _ (all_ws_nl_close close hclose)
  rw [show skipWs ('\n' :: (close ++ c :: rest)) =
    skipWs (('\n' :: close) ++ (c :: rest)) from rfl, h1, skipWs_cons_not c rest hc]

theorem skipWs_IC_fields (ind2 : Nat) (k : Str) (v : Json)
    (fs' : List (Str × Json)) (suf : Str) :
    ∃ t0, skipWs (List.intercalate (lit ",\n")
      (dumpsFields ind2 ((k, v) :: fs')) ++ suf) = '"' :: t0 := by
  cases fs' with
  | nil =>
    refine ⟨(k.map escapeChar).flatten ++
      ('"' :: ((':' :: ' ' :: dumpsVal ind2 v) ++ suf)), ?_⟩
    rw [show dumpsFields ind2 [(k, v)] =
      [spacesN ind2 ++ (escString k ++ (':' :: ' ' :: dumpsVal ind2 v))] from by
        simp [dumpsFields],
      intercalate_singleton, List.append_assoc,
      skipWs_ws_append _ _ (spacesN_ws ind2),
      show (escString k ++ (':' :: ' ' :: dumpsVal ind2 v)) ++ suf =
        '"' :: ((k.map escapeChar).flatten ++
          ('"' :: ((':' :: ' ' :: dumpsVal ind2 v) ++ suf))) from by
        simp [escString, List.append_assoc],
      skipWs_cons_not '"' _ (by decide)]
  | cons f2 fs'' =>
    refine ⟨(k.map escapeChar).flatten ++
      ('"' :: ((':' :: ' ' :: dumpsVal ind2 v) ++ (lit ",\n" ++
        (List.intercalate (lit ",\n") (dumpsFields ind2 (f2 :: fs'')) ++ suf)))), ?_⟩
    rw [show dumpsFields ind2 ((k, v) :: f2 :: fs'') =
      (spacesN ind2 ++ (escString k ++ (':' :: ' ' :: dumpsVal ind2 v))) ::
        dumpsFields ind2 (f2 :: fs'') from by
        simp [dumpsFields],
      intercalate_cons_ne _ _ _ (by
        obtain ⟨k2, v2⟩ := f2
        simp [dumpsFields])]
    rw [show ((spacesN ind2 ++ (escString k ++ (':' :: ' ' :: dumpsVal ind2 v))) ++
        lit ",\n" ++ List.intercalate (lit ",\n") (dumpsFields ind2 (f2 :: fs''))) ++
        suf =
      spacesN ind2 ++ (escString k ++ ((':' :: ' ' :: dumpsVal ind2 v) ++
        (lit ",\n" ++ (List.intercalate (lit ",\n")
          (dumpsFields ind2 (f2 :: fs'')) ++ suf)))) from by
      simp [List.append_assoc]]
    rw [skipWs_ws_append _ _ (spacesN_ws ind2),
      show escString k ++ ((':' :: ' ' :: dumpsVal ind2 v) ++ (lit ",\n" ++
        (List.intercalate (lit ",\n") (dumpsFields ind2 (f2 :: fs'')) ++ suf))) =
      '"' :: ((k.map escapeChar).flatten ++
        ('"' :: ((':' :: ' ' :: dumpsVal ind2 v) ++ (lit ",\n" ++
          (List.intercalate (lit ",\n") (dumpsFields ind2 (f2 :: fs'')) ++ suf)))))
        from by simp [escString, List.append_assoc],
      skipWs_cons_not '"' _ (by decide)]

theorem parse_dumps : ∀ fuel : Nat,
    (∀ (ind : Nat) (j : Json) (rest : Str), jWellKeyed j = true →
      jMeasure j ≤ fuel → noDigitHead rest = true →
      parseValue fuel (dumpsVal ind j ++ rest) = some (j, rest)) ∧
    (∀ (ind2 : Nat) (e : Json) (es : List Json) (close rest : Str),
      close.all isWsCh = true →
      jWellKeyedList (e :: es) = true → jMeasureList (e :: es) ≤ fuel →
      parseArrElems fuel
        ('\n' :: (List.intercalate (lit ",\n") (dumpsItems ind2 (e :: es)) ++
          '\n' :: (close ++ ']' :: rest))) = some (e :: es, rest)) ∧
    (∀ (ind2 : Nat) (k : Str) (v : Json) (fs' : List (Str × Json)) (close rest : Str),
      close.all isWsCh = true →
      jWellKeyedFields ((k, v) :: fs') = true →
      jMeasureFields ((k, v) :: fs') ≤ fuel →
      parseObjFields fuel
        ('\n' :: (List.intercalate (lit ",\n") (dumpsFields ind2 ((k, v) :: fs')) ++
          '\n' :: (close ++ rbrace :: rest))) = some ((k, v) :: fs', rest)) := by
  intro fuel
  induction fuel with
  | zero =>
    refine ⟨?_, ?_, ?_⟩
    · intro ind j rest _ hm _
      have := jMeasure_pos j
      omega
    · intro ind2 e es close rest _ _ hm
      simp only [jMeasureList] at hm
      omega
    · intro ind2 k v fs' close rest _ _ hm
      simp only [jMeasureFields] at hm
      omega
  | succ f ih =>
    obtain ⟨ihv, iha, iho⟩ := ih
    refine ⟨?_, ?_, ?_⟩
    · -- parseValue on a dumped value
      intro ind j rest hw hm hr
      cases j with
      | null => exact parseValue_dumps_null f ind rest
      | bool b => exact parseValue_dumps_bool f ind b rest
      | num n => exact parseValue_dumps_num f ind n rest hr
      | str s => exact parseValue_dumps_str f ind s rest
      | arr l =>
        cases l with
        | nil => rfl
        | cons e es =>
          simp only [jWellKeyed] at hw
          simp only [jMeasure] at hm
          rw [show dumpsVal ind (Json.arr (e :: es)) ++ rest =
              '[' :: ('\n' :: (List.intercalate (lit ",\n")
                (dumpsItems (ind + 2) (e :: es)) ++
                '\n' :: (spacesN ind ++ ']' :: rest))) from by
            simp [dumpsVal, List.append_assoc]]
          simp only [parseValue]
          rw [show skipWs ('[' :: ('\n' :: (List.intercalate (lit ",\n")
              (dumpsItems (ind + 2) (e :: es)) ++
              '\n' :: (spacesN ind ++ ']' :: rest)))) =
            '[' :: ('\n' :: (List.intercalate (lit ",\n")
              (dumpsItems (ind + 2) (e :: es)) ++
              '\n' :: (spacesN ind ++ ']' :: rest))) from
            skipWs_cons_not _ _ (by decide)]
          obtain ⟨c0, t0, hskip, hnws0, hne0⟩ :=
            skipWs_IC_items (ind + 2) e es ('\n' :: (spacesN ind ++ ']' :: rest))
          have h2 : skipWs ('\n' :: (List.intercalate (lit ",\n")
              (dumpsItems (ind + 2) (e :: es)) ++
              '\n' :: (spacesN ind ++ ']' :: rest))) = c0 :: t0 := by
            rw [show skipWs ('\n' :: (List.intercalate (lit ",\n")
                (dumpsItems (ind + 2) (e :: es)) ++
                '\n' :: (spacesN ind ++ ']' :: rest))) =
              skipWs (['\n'] ++ (List.intercalate (lit ",\n")
                (dumpsItems (ind + 2) (e :: es)) ++
                '\n' :: (spacesN ind ++ ']' :: rest))) from rfl,
              skipWs_ws_append _ _ (by decide)]
            exact hskip
          simp +decide only [h2, if_true, if_false]
          rw [iha (ind + 2) e es (spacesN ind) rest (spacesN_ws ind) hw (by omega)]
          split
          · next x r heq =>
            injection heq with hh1 hh2
            exact absurd hh1 hne0
          · rfl
      | obj fs =>
        cases fs with
        | nil => rfl
        | cons fld fs' =>
          obtain ⟨k, v⟩ := fld
          simp only [jWellKeyed, Bool.and_eq_true] at hw
          simp only [jMeasure] at hm
          rw [show dumpsVal ind (Json.obj ((k, v) :: fs')) ++ rest =
              lbrace :: ('\n' :: (List.intercalate (lit ",\n")
                (dumpsFields (ind + 2) ((k, v) :: fs')) ++
                '\n' :: (spacesN ind ++ rbrace :: rest))) from by
            simp [dumpsVal, List.append_assoc]]
          simp only [parseValue]
          rw [show skipWs (lbrace :: ('\n' :: (List.intercalate (lit ",\n")
              (dumpsFields (ind + 2) ((k, v) :: fs')) ++
              '\n' :: (spacesN ind ++ rbrace :: rest)))) =
            lbrace :: ('\n' :: (List.intercalate (lit ",\n")
              (dumpsFields (ind + 2) ((k, v) :: fs')) ++
              '\n' :: (spacesN ind ++ rbrace :: rest))) from
            skipWs_cons_not _ _ (by decide)]
          obtain ⟨t0, hskip⟩ :=
            skipWs_IC_fields (ind + 2) k v fs' ('\n' :: (spacesN ind ++ rbrace :: rest))
          have h2 : skipWs ('\n' :: (List.intercalate (lit ",\n")
              (dumpsFields (ind + 2) ((k, v) :: fs')) ++
              '\n' :: (spacesN ind ++ rbrace :: rest))) = '"' :: t0 := by
            rw [show skipWs ('\n' :: (List.intercalate (lit ",\n")
                (dumpsFields (ind + 2) ((k, v) :: fs')) ++
                '\n' :: (spacesN ind ++ rbrace :: rest))) =
              skipWs (['\n'] ++ (List.intercalate (lit ",\n")
                (dumpsFields (ind + 2) ((k, v) :: fs')) ++
                '\n' :: (spacesN ind ++ rbrace :: rest))) from rfl,
              skipWs_ws_append _ _ (by decide)]
            exact hskip
          simp +decide only [h2, if_true, if_false]
          rw [iho (ind + 2) k v fs' (spacesN ind) rest (spacesN_ws ind) hw.2 (by omega)]
          simp only [Option.map_some', Option.some.injEq, Prod.mk.injEq, and_true,
            Json.obj.injEq]
          exact buildDict_nodup _ hw.1
    · -- parseArrElems on dumped items
      intro ind2 e es close rest hclose hwl hml
      simp only [jWellKeyedList, Bool.and_eq_true] at hwl
      simp only [jMeasureList] at hml
      have hpos := jMeasure_pos e
      cases es with
      | nil =>
        rw [show ('\n' :: (List.intercalate (lit ",\n") (dumpsItems ind2 [e]) ++
            '\n' :: (close ++ ']' :: rest))) =
          ('\n' :: spacesN ind2) ++ (dumpsVal ind2 e ++
            ('\n' :: (close ++ ']' :: rest))) from by
          rw [show dumpsItems ind2 [e] = [spacesN ind2 ++ dumpsVal ind2 e] from rfl,
            intercalate_singleton]
          simp [List.append_assoc]]
        simp only [parseArrElems]
        rw [parseValue_ws f _ _ (all_ws_nl_spaces ind2),
          ihv ind2 e ('\n' :: (close ++ ']' :: rest)) hwl.1 (by omega) rfl]
        simp only [Option.bind_eq_bind, Option.some_bind]
        rw [skipWs_nl_close close rest ']' hclose (by decide)]
        rfl
      | cons e2 es' =>
        rw [show ('\n' :: (List.intercalate (lit ",\n")
            (dumpsItems ind2 (e :: e2 :: es')) ++
            '\n' :: (close ++ ']' :: rest))) =
          ('\n' :: spacesN ind2) ++ (dumpsVal ind2 e ++
            (',' :: ('\n' :: (List.intercalate (lit ",\n")
              (dumpsItems ind2 (e2 :: es')) ++
              '\n' :: (close ++ ']' :: rest))))) from by
          rw [show dumpsItems ind2 (e :: e2 :: es') =
              (spacesN ind2 ++ dumpsVal ind2 e) :: dumpsItems ind2 (e2 :: es') from rfl,
            intercalate_cons_ne _ _ _ (by simp [dumpsItems]),
            show lit ",\n" = [',', '\n'] from rfl]
          simp [List.append_assoc]]
        simp only [parseArrElems]
        rw [parseValue_ws f _ _ (all_ws_nl_spaces ind2),
          ihv ind2 e (',' :: ('\n' :: (List.intercalate (lit ",\n")
            (dumpsItems ind2 (e2 :: es')) ++
            '\n' :: (close ++ ']' :: rest)))) hwl.1 (by omega) rfl]
        simp only [Option.bind_eq_bind, Option.some_bind]
        rw [show skipWs (',' :: ('\n' :: (List.intercalate (lit ",\n")
            (dumpsItems ind2 (e2 :: es')) ++
            '\n' :: (close ++ ']' :: rest)))) =
          ',' :: ('\n' :: (List.intercalate (lit ",\n")
            (dumpsItems ind2 (e2 :: es')) ++
            '\n' :: (close ++ ']' :: rest))) from
          skipWs_cons_not _ _ (by decide)]
        simp +decide only [if_true, if_false]
        rw [iha ind2 e2 es' close rest hclose hwl.2 (by omega)]
        rfl
    · -- parseObjFields on dumped fields
      intro ind2 k v fs' close rest hclose hwf hmf
      simp only [jWellKeyedFields, Bool.and_eq_true] at hwf
      simp only [jMeasureFields] at hmf
      have hpos := jMeasure_pos v
      cases fs' with
      | nil =>
        rw [show ('\n' :: (List.intercalate (lit ",\n")
            (dumpsFields ind2 [(k, v)]) ++
            '\n' :: (close ++ rbrace :: rest))) =
          ('\n' :: spacesN ind2) ++ ('"' :: ((k.map escapeChar).flatten ++
            '"' :: (':' :: ' ' :: (dumpsVal ind2 v ++
              ('\n' :: (close ++ rbrace :: rest)))))) from by
          rw [show dumpsFields ind2 [(k, v)] =
            [spacesN ind2 ++ (escString k ++ (':' :: ' ' :: dumpsVal ind2 v))] from by
              simp [dumpsFields],
            intercalate_singleton]
          simp [escString, List.append_assoc]]
        rw [parseObjFields_ws (f + 1) _ _ (all_ws_nl_spaces ind2)]
        simp only [parseObjFields]
        rw [skipWs_cons_not '"' _ (by decide)]
        simp +decide only [if_true, if_false]
        rw [parseStringBody_esc k _ _ (by
          simp only [List.length_append, List.length_cons]
          omega)]
        simp only [Option.bind_eq_bind, Option.some_bind]
        rw [skipWs_cons_not ':' _ (by decide)]
        simp +decide only [if_true, if_false]
        have hpv : parseValue f (' ' :: (dumpsVal ind2 v ++
            ('\n' :: (close ++ rbrace :: rest)))) =
            parseValue f (dumpsVal ind2 v ++ ('\n' :: (close ++ rbrace :: rest))) :=
          parseValue_ws f [' '] _ (by decide)
        rw [hpv, ihv ind2 v ('\n' :: (close ++ rbrace :: rest)) hwf.1 (by omega) rfl]
        simp only [Option.bind_eq_bind, Option.some_bind]
        rw [skipWs_nl_close close rest rbrace hclose (by decide)]
        rfl
      | cons f2 fs'' =>
        obtain ⟨k2, v2⟩ := f2
        rw [show ('\n' :: (List.intercalate (lit ",\n")
            (dumpsFields ind2 ((k, v) :: (k2, v2) :: fs'')) ++
            '\n' :: (close ++ rbrace :: rest))) =
          ('\n' :: spacesN ind2) ++ ('"' :: ((k.map escapeChar).flatten ++
            '"' :: (':' :: ' ' :: (dumpsVal ind2 v ++
              (',' :: ('\n' :: (List.intercalate (lit ",\n")
                (dumpsFields ind2 ((k2, v2) :: fs'')) ++
                '\n' :: (close ++ rbrace :: rest)))))))) from by
          rw [show dumpsFields ind2 ((k, v) :: (k2, v2) :: fs'') =
            (spacesN ind2 ++ (escString k ++ (':' :: ' ' :: dumpsVal ind2 v))) ::
              dumpsFields ind2 ((k2, v2) :: fs'') from by simp [dumpsFields],
            intercalate_cons_ne _ _ _ (by simp [dumpsFields]),
            show lit ",\n" = [',', '\n'] from rfl]
          simp [escString, List.append_assoc]]
        rw [parseObjFields_ws (f + 1) _ _ (all_ws_nl_spaces ind2)]
        simp only [parseObjFields]
        rw [skipWs_cons_not '"' _ (by decide)]
        simp +decide only [if_true, if_false]
        rw [parseStringBody_esc k _ _ (by
          simp only [List.length_append, List.length_cons]
          omega)]
        simp only [Option.bind_eq_bind, Option.some_bind]
        rw [skipWs_cons_not ':' _ (by decide)]
        simp +decide only [if_true, if_false]
        have hpv : parseValue f (' ' :: (dumpsVal ind2 v ++
            (',' :: ('\n' :: (List.intercalate (lit ",\n")
              (dumpsFields ind2 ((k2, v2) :: fs'')) ++
              '\n' :: (close ++ rbrace :: rest)))))) =
            parseValue f (dumpsVal ind2 v ++
            (',' :: ('\n' :: (List.intercalate (lit ",\n")
              (dumpsFields ind2 ((k2, v2) :: fs'')) ++
              '\n' :: (close ++ rbrace :: rest))))) :=
          parseValue_ws f [' '] _ (by decide)
        rw [hpv, ihv ind2 v (',' :: ('\n' :: (List.intercalate (lit ",\n")
            (dumpsFields ind2 ((k2, v2) :: fs'')) ++
            '\n' :: (close ++ rbrace :: rest)))) hwf.1 (by omega) rfl]
        simp only [Option.bind_eq_bind, Option.some_bind]
        rw [skipWs_cons_not ',' _ (by decide)]
        simp +decide only [if_true, if_false]
        rw [iho ind2 k2 v2 fs'' close rest hclose hwf.2 (by omega)]
        rfl

theorem dumps_roundtrip (j : Json) (h : jWellKeyed j = true) :
    jsonLoads (jsonDumps j) = some j := by
  have hfuel : jMeasure j ≤ (dumpsVal 0 j).length + 1 := by
    have := jMeasure_le_dumps j 0
    omega
  have hpv := (parse_dumps ((dumpsVal 0 j).length + 1)).1 0 j [] h hfuel rfl
  rw [List.append_nil] at hpv
  simp only [jsonLoads, jsonDumps]
  rw [hpv]
  rfl

/-- C6: the file served by the JSON download button of a successful
comparison is exactly `json.dumps` of the response object the renderer
displayed, and for every response object (whose dicts, as Python dicts,
cannot carry a key twice) that serialized text is valid JSON which
`json.loads` parses back to the very same object: serialize-then-parse is
the identity on the displayed comparison object. -/
theorem C6_json_roundtrip :
    (∀ (NL : Bool) (resp : Json) (ls : List Line),
      compareRender NL resp = some ls →
      Line.download (lit "shpr_ai_major_changes.json") (jsonDumps resp) ∈ ls) ∧
    (∀ resp : Json, jWellKeyed resp = true →
      jsonLoads (jsonDumps resp) = some resp) := by
  constructor
  · intro NL resp ls h
    simp only [compareRender, Option.bind_eq_bind, Option.bind_eq_some,
      Option.pure_def, Option.some.injEq] at h
    obtain ⟨ui, hui, md, hmd, hls⟩ := h
    rw [← hls]
    simp
  · intro resp h
    exact dumps_roundtrip resp h

set_option maxRecDepth 8000 in
/-- Closed instance of `C6_json_roundtrip`: the comparison response
`deltaNullResp` renders successfully, its JSON download line carries its
`json.dumps` text, and parsing that text back returns the object itself. -/
theorem C6_json_roundtrip_witness :
    Line.download (lit "shpr_ai_major_changes.json") (jsonDumps deltaNullResp) ∈
      (compareRender true deltaNullResp).getD [] ∧
    jWellKeyed deltaNullResp = true ∧
    jsonLoads (jsonDumps deltaNullResp) = some deltaNullResp :=
  ⟨C6_json_roundtrip.1 true deltaNullResp
      ((compareRender true deltaNullResp).getD []) (by decide),
   by decide,
   C6_json_roundtrip.2 deltaNullResp (by decide)⟩

end ContractApp

